import Mathlib

/-!
# Verification of the PokerStars hand-history parser (`poker/room/pokerstars.py`)

This file is a shallow embedding of the hand-history parsing engine of the
repository.  Python strings are embedded as `String`/`List Char`; the regular
expressions of the source are hand-compiled into deterministic character-level
parsers that realise Python `re.match` semantics (anchored at the start,
greedy/lazy quantifiers with the local backtracking the concrete patterns can
actually exercise; committed choice is used at alternation points whose
branches start with disjoint characters, which coincides with the regex
behaviour there).  Python exceptions are embedded as an error type threaded
through every step; attribute assignment on the hand object is embedded as a
state record whose fields are `Option`-wrapped ("never assigned" vs a value,
which itself may be Python `None`).

Parsing operates on the list of logical segments of the hand text (the result
of `_split_raw`).  The splitter itself lives in the base module
`poker/handhistory.py`, which is not part of the sources; hands are therefore
represented by their splitted segment list, and `_sections` is the list of
indices of empty segments, as documented in the spec's Section Splitter
contract.

Python `Decimal` amounts are embedded as the exact digit strings captured from
the text (the spec requires exact decimal values; no arithmetic is performed
on them anywhere in the parser, so the captured text is a lossless
representation).
-/

namespace Poker

/-! ## Character classes and Python string helpers -/

/-- Python `\s` over the ASCII range (the hand texts are ASCII). -/
def isWs (c : Char) : Bool :=
  c = ' ' || c = '\t' || c = '\n' || c = '\r' || c = '\x0b' || c = '\x0c'

/-- Python `\d`. -/
def isDigitC (c : Char) : Bool := '0' ≤ c && c ≤ '9'

/-- Python `[A-Z]`. -/
def isUpperC (c : Char) : Bool := 'A' ≤ c && c ≤ 'Z'

/-- Python `\w` over the ASCII range (used for `\b` word boundaries). -/
def isWordC (c : Char) : Bool :=
  isDigitC c || isUpperC c || ('a' ≤ c && c ≤ 'z') || c = '_'

/-- The regex `.` metacharacter: any character except a newline. -/
def isDot (c : Char) : Bool := c ≠ '\n'

/-- Boolean prefix test on character lists. -/
def prefixOf : List Char → List Char → Bool
  | [], _ => true
  | _ :: _, [] => false
  | a :: as, b :: bs => a = b && prefixOf as bs

/-- Python's substring containment `needle in hay`. -/
def subIn (n : List Char) : List Char → Bool
  | [] => prefixOf n []
  | c :: cs => prefixOf n (c :: cs) || subIn n cs

/-- Substring containment on `String`s. -/
def subInS (n hay : String) : Bool := subIn n.data hay.data

/-- Python `str.strip()`: drop whitespace from both ends. -/
def pyStrip (cs : List Char) : List Char :=
  ((cs.dropWhile isWs).reverse.dropWhile isWs).reverse

/-- Python slice `s[a:b]` for `0 ≤ a ≤ b` (the only form the source uses,
with `b` clipped to the length as in Python). -/
def pySlice (cs : List Char) (a b : Nat) : List Char := (cs.drop a).take (b - a)

/-- Python `str.find(sub)`: index of the first occurrence, `-1` when absent. -/
def pyFindAux (n : List Char) : List Char → Nat → Option Nat
  | [], _ => if prefixOf n [] then some 0 else none
  | c :: cs, i =>
    if prefixOf n (c :: cs) then some i else pyFindAux n cs (i + 1)

/-- Index of the first occurrence of `n` in `cs` (Python `str.index`,
`none` embeds the `ValueError`). -/
def pyIndex (n cs : List Char) : Option Nat := pyFindAux n cs 0

/-- Python list indexing with negative-index wrap-around; `none` embeds
`IndexError`. -/
def pyGet {α : Type} (l : List α) (i : Int) : Option α :=
  if 0 ≤ i then l.get? i.toNat
  else if 0 ≤ (l.length : Int) + i then l.get? ((l.length : Int) + i).toNat
  else none

/-- Python list item assignment with negative-index wrap-around; `none`
embeds `IndexError`. -/
def pySet {α : Type} (l : List α) (i : Int) (a : α) : Option (List α) :=
  if 0 ≤ i then
    if i.toNat < l.length then some (l.set i.toNat a) else none
  else if 0 ≤ (l.length : Int) + i then
    some (l.set ((l.length : Int) + i).toNat a)
  else none

/-- Python `str.split()` with no argument: split on whitespace runs,
discarding empty pieces. -/
def pySplitWsAux : List Char → List Char → List (List Char)
  | [], acc => if acc.isEmpty then [] else [acc.reverse]
  | c :: cs, acc =>
    if isWs c then
      if acc.isEmpty then pySplitWsAux cs [] else acc.reverse :: pySplitWsAux cs []
    else pySplitWsAux cs (c :: acc)

def pySplitWs (cs : List Char) : List (List Char) := pySplitWsAux cs []

/-- Python `int()` on a string of digits. -/
def digitsToNat (cs : List Char) : Nat :=
  cs.foldl (fun n c => n * 10 + (c.toNat - '0'.toNat)) 0

/-! ## Embedded Python exceptions

`headerFormatError` is modelled from the spec: the spec's error taxonomy
names a `HeaderFormatError` for header lines matching no sub-grammar, but no
such class exists anywhere in the source; the constructor is present so that
statements can compare the error the code actually raises against it.  The
remaining constructors embed the exception classes the source code can
actually raise: `UnknownActionError`, and the built-in `AttributeError`
(calling `.group` on a failed, i.e. `None`, regex match), `ValueError`
(failed `str.index`/enum lookup/`Combo` validation), `IndexError` (list
subscript out of range) and `TypeError` (`Decimal(None)`). -/
inductive PErr where
  | unknownAction
  | attributeError
  | valueError
  | indexError
  | typeError
  | headerFormatError
  deriving DecidableEq, Repr

/-! ## Data model (leaf types)

The `Card`, `Combo` and enumeration types live in `poker/card.py`,
`poker/hand.py` and `poker/constants.py`, which are not part of the sources.
They are modelled from the spec (§3 data model, §4.2 action vocabulary) and
from the values the test-suite exercises. -/

/-- Modelled from the spec: a card is a rank (13 values) × suit (4 values);
constructed from two-character text such as `"As"`, anything else failing
validation. -/
structure Card where
  rank : Char
  suit : Char
  deriving DecidableEq, Repr

def rankChars : List Char := ['2', '3', '4', '5', '6', '7', '8', '9', 'T', 'J', 'Q', 'K', 'A']

def suitChars : List Char := ['c', 'd', 'h', 's']

/-- Modelled from the spec: card construction fails (`ValueError`) unless the
text is a valid rank character followed by a valid suit character. -/
def Card.ofChars : List Char → Option Card
  | [r, s] => if r ∈ rankChars ∧ s ∈ suitChars then some ⟨r, s⟩ else none
  | _ => none

/-- Modelled from the spec: a combo is 2 or 4 unique cards; constructing from
a duplicate or otherwise invalid card set fails with a validation error. -/
structure Combo where
  cards : List Card
  deriving DecidableEq, Repr

def comboFromArray (xs : List (List Char)) : Option Combo :=
  match xs.mapM Card.ofChars with
  | none => none
  | some cs =>
    if cs.Nodup ∧ (cs.length = 2 ∨ cs.length = 4) then some ⟨cs⟩ else none

/-- Modelled from the spec: the enumerated game-type flag. -/
inductive GameType where
  | TOUR
  | CASH
  deriving DecidableEq, Repr

/-- Modelled from the spec: the real-vs-play money-type flag. -/
inductive MoneyType where
  | REAL
  | PLAY
  deriving DecidableEq, Repr

/-- Modelled from the spec: the enumerated currency set (the values the
tests exercise; an unknown code fails the enum lookup). -/
inductive CurrencyT where
  | USD
  | EUR
  | GBP
  | STARS_COIN
  deriving DecidableEq, Repr

def CurrencyT.ofString : String → Option CurrencyT
  | "USD" => some .USD
  | "EUR" => some .EUR
  | "GBP" => some .GBP
  | "SC" => some .STARS_COIN
  | _ => none

/-- Modelled from the spec: the game-variant enumeration. -/
inductive GameT where
  | HOLDEM
  | OMAHA
  deriving DecidableEq, Repr

def GameT.ofString : String → Option GameT
  | "Hold'em" => some .HOLDEM
  | "Omaha" => some .OMAHA
  | _ => none

/-- Modelled from the spec: the limit-type enumeration. -/
inductive LimitT where
  | NL
  | PL
  | FL
  deriving DecidableEq, Repr

def LimitT.ofString : String → Option LimitT
  | "No Limit" => some .NL
  | "Pot Limit" => some .PL
  | "Limit" => some .FL
  | _ => none

/-- Modelled from the spec: the closed set of action kinds (§4.2). -/
inductive ActionT where
  | BET
  | RAISE
  | CHECK
  | FOLD
  | CALL
  | RETURN
  | WIN
  | SHOW
  | MUCK
  | JOIN
  | LEAVE
  | TIMED_OUT
  | CONNECTED
  | DISCONNECTED
  | REMOVED
  deriving DecidableEq, Repr

/-- Modelled from the spec: the mapping of logged verbs onto the canonical
action vocabulary (§4.2 rule 10; the multi-spelling values are those the
test-suite exercises).  An unmapped verb fails the enum lookup
(`ValueError`). -/
def ActionT.ofVerb : String → Option ActionT
  | "bet" => some .BET
  | "bets" => some .BET
  | "raise" => some .RAISE
  | "raises" => some .RAISE
  | "check" => some .CHECK
  | "checks" => some .CHECK
  | "fold" => some .FOLD
  | "folded" => some .FOLD
  | "folds" => some .FOLD
  | "call" => some .CALL
  | "calls" => some .CALL
  | "return" => some .RETURN
  | "returned" => some .RETURN
  | "uncalled" => some .RETURN
  | "win" => some .WIN
  | "won" => some .WIN
  | "collected" => some .WIN
  | "show" => some .SHOW
  | "shows" => some .SHOW
  | "mucks" => some .MUCK
  | _ => none

/-- The value slot of a `_PlayerAction`: Python `None`, a `Decimal` built
from captured digits, a raw captured string (the `JOIN` seat number), or a
`Combo` (the `SHOW` payload). -/
inductive PAValue where
  | nil
  | dec (s : String)
  | str (s : String)
  | combo (c : Combo)
  deriving DecidableEq, Repr

/-- The `hh._PlayerAction` named tuple. -/
structure PlayerAction where
  name : String
  action : ActionT
  value : PAValue
  deriving DecidableEq, Repr

/-! ## Action classifier (`ActionParser`)

Each of the four action regexes of the source is hand-compiled below.  A
shared helper realises `\d+(?:\.\d+)?` followed by a continuation: the
greedy fractional part is given back when the continuation fails after it;
shrinking a `\d+` run can never help at any use site because what follows
the amount group in every pattern (a parenthesis, a space, or the end of
the pattern) matches no digit. -/

/-- `[^\d]*?` immediately followed by `\d`: lazily skip to the first digit
(failing when no digit remains). -/
def skipToDigit : List Char → Option (List Char)
  | [] => none
  | c :: cs => if isDigitC c then some (c :: cs) else skipToDigit cs

/-- `\d+(?:\.\d+)?` followed by continuation `k`; returns the captured
number text and the continuation result. -/
def pNumThen {α : Type} (cs : List Char) (k : List Char → Option α) :
    Option (List Char × α) :=
  let ds := cs.takeWhile isDigitC
  if ds.isEmpty then none
  else
    let rest := cs.drop ds.length
    match rest with
    | '.' :: r2 =>
      let fs := r2.takeWhile isDigitC
      if fs.isEmpty then (k rest).map fun a => (ds, a)
      else
        match k (r2.drop fs.length) with
        | some a => some (ds ++ '.' :: fs, a)
        | none => (k rest).map fun a => (ds, a)
    | _ => (k rest).map fun a => (ds, a)

/-- The captured number when the pattern ends right after the amount group. -/
def pNumEnd (cs : List Char) : Option (List Char) :=
  (pNumThen cs fun _ => some ()).map Prod.fst

/-- A triple as returned by the `_parse_*` action handlers. -/
abbrev PATriple := String × ActionT × PAValue

/-- `_parse_show`: name before the first colon, cards between the first
square brackets, combo from the whitespace-split card words. -/
def parseShowH (line : List Char) : Except PErr PATriple :=
  match pyIndex [':'] line with
  | none => .error .valueError
  | some ci =>
    match pyIndex ['['] line, pyIndex [']'] line with
    | some li, some ri =>
      match comboFromArray (pySplitWs (pySlice line (li + 1) ri)) with
      | none => .error .valueError
      | some cb => .ok (⟨line.take ci⟩, .SHOW, .combo cb)
    | _, _ => .error .valueError

/-- `\s+` then `(?P<name>.+)$`: maximal whitespace, given back one character
when nothing would remain for the name. -/
def wsThenRest (cs : List Char) : Option (List Char) :=
  let ws := cs.takeWhile isWs
  if ws.isEmpty then none
  else
    let rest := cs.drop ws.length
    if rest.isEmpty then
      if 2 ≤ ws.length ∧ (ws.drop 1).all isDot then some (ws.drop 1) else none
    else if rest.all isDot then some rest
    else none

/-- `_uncalled_re`:
`^Uncalled bet \([^\d]*?(?P<amount>\d+(?:\.\d+)?)\) returned to\s+(?P<name>.+)$`. -/
def uncalledMatch (cs : List Char) : Option (String × String) :=
  let pre := ("Uncalled bet (").data
  if prefixOf pre cs then
    match skipToDigit (cs.drop pre.length) with
    | none => none
    | some ds =>
      match pNumThen ds (fun r =>
          let mid := (") returned to").data
          if prefixOf mid r then wsThenRest (r.drop mid.length) else none) with
      | some (num, name) => some (⟨num⟩, ⟨name⟩)
      | none => none
  else none

def parseUncalledH (line : List Char) : Except PErr PATriple :=
  match uncalledMatch line with
  | none => .error .attributeError
  | some (amount, name) => .ok (name, .RETURN, .dec amount)

/-- `_collected_re`: `^(?P<name>.+?) collected [^\d]*?(?P<amount>\d+(?:\.\d+)?)`.
The lazy name grows one character at a time until the rest of the pattern
matches. -/
def collectedAux (name : List Char) : List Char → Option (String × String)
  | [] => none
  | c :: cs =>
    if isDot c then
      let name' := name ++ [c]
      let mid := (" collected ").data
      if prefixOf mid cs then
        match skipToDigit (cs.drop mid.length) with
        | some ds =>
          match pNumEnd ds with
          | some num => some (⟨name'⟩, ⟨num⟩)
          | none => collectedAux name' cs
        | none => collectedAux name' cs
      else collectedAux name' cs
    else none

def collectedMatch (cs : List Char) : Option (String × String) := collectedAux [] cs

def parseCollectedH (line : List Char) : Except PErr PATriple :=
  match collectedMatch line with
  | none => .error .attributeError
  | some (name, amount) => .ok (name, .WIN, .dec amount)

/-- `_parse_muck`: `str.find` yields `-1` when no colon is present, so the
name is then the whole line but its last character (the Python `line[:-1]`
quirk is kept). -/
def parseMuckH (line : List Char) : Except PErr PATriple :=
  match pyIndex [':'] line with
  | some ci => .ok (⟨line.take ci⟩, .MUCK, .nil)
  | none => .ok (⟨line.take (line.length - 1)⟩, .MUCK, .nil)

/-- `_join_re`: `^(?P<name>.+?) joins the table at seat #(?P<seat>\d+)$`. -/
def joinAux (name : List Char) : List Char → Option (String × String)
  | [] => none
  | c :: cs =>
    if isDot c then
      let name' := name ++ [c]
      let mid := (" joins the table at seat #").data
      if prefixOf mid cs then
        let r := cs.drop mid.length
        let ds := r.takeWhile isDigitC
        if ds.isEmpty then joinAux name' cs
        else if (r.drop ds.length).isEmpty then some (⟨name'⟩, ⟨ds⟩)
        else joinAux name' cs
      else joinAux name' cs
    else none

def parseJoinH (line : List Char) : Except PErr PATriple :=
  match joinAux [] line with
  | none => .error .attributeError
  | some (name, seat) => .ok (name, .JOIN, .str seat)

/-- `line.index(marker)` then `line[:i].strip()`, shared by the leave /
timed-out / connected / disconnected / removed handlers. -/
def indexPrefixName (marker : String) (line : List Char) : Except PErr String :=
  match pyIndex marker.data line with
  | none => .error .valueError
  | some i => .ok ⟨pyStrip (line.take i)⟩

def parseLeaveH (line : List Char) : Except PErr PATriple :=
  (indexPrefixName "leaves the table" line).map fun n => (n, .LEAVE, .nil)

def parseTimedOutH (line : List Char) : Except PErr PATriple :=
  (indexPrefixName "has timed out" line).map fun n => (n, .TIMED_OUT, .nil)

def parseDisconnectedH (line : List Char) : Except PErr PATriple :=
  (indexPrefixName "is disconnected" line).map fun n => (n, .DISCONNECTED, .nil)

def parseConnectedH (line : List Char) : Except PErr PATriple :=
  (indexPrefixName "is connected" line).map fun n => (n, .CONNECTED, .nil)

def parseRemovedH (line : List Char) : Except PErr PATriple :=
  (indexPrefixName "was removed" line).map fun n => (n, .REMOVED, .nil)

/-- `(?P<action>.+?\b)`: the lazy verb capture, stopping at the first word
boundary after at least one character. -/
def lazyBoundary (acc : List Char) : List Char → Option (List Char × List Char)
  | [] => none
  | c :: cs =>
    if isDot c then
      let acc' := acc ++ [c]
      match cs with
      | [] => if isWordC c then some (acc', []) else none
      | d :: _ =>
        if isWordC c != isWordC d then some (acc', cs) else lazyBoundary acc' cs
    else none

/-- The candidate colon positions of `^(?P<name>.+):` in greedy order (last
feasible colon first); the name part must be nonempty and newline-free. -/
def colonCandidates (line : List Char) : List Nat :=
  ((List.range line.length).filter fun i =>
    line.get? i = some ':' && 1 ≤ i && (line.take i).all isDot).reverse

/-- The trailing `\s+(?P<action>.+?\b)\s*(?:[^\d]*?(?P<amount>...))?` part of
`_player_action_re`, tried after the colon at index `i`. -/
def paAt (line : List Char) (i : Nat) : Option (String × String × Option String) :=
  let rest := line.drop (i + 1)
  let ws := rest.takeWhile isWs
  if ws.isEmpty then none
  else
    match lazyBoundary [] (rest.drop ws.length) with
    | none => none
    | some (verb, rem) =>
      let amt := match skipToDigit rem with
        | none => none
        | some ds => (pNumEnd ds).map fun n => (⟨n⟩ : String)
      some (⟨line.take i⟩, ⟨verb⟩, amt)

def paTry (line : List Char) : List Nat → Option (String × String × Option String)
  | [] => none
  | i :: is =>
    match paAt line i with
    | some r => some r
    | none => paTry line is

/-- `_parse_player_action`: the generic `name: verb [amount]` form; an
unmapped verb fails the `Action` enum lookup (`ValueError`), a missing
amount group is the caught `Decimal(None)` `TypeError`, leaving `None`. -/
def parsePlayerActionH (line : List Char) : Except PErr PATriple :=
  match paTry line (colonCandidates line) with
  | none => .error .attributeError
  | some (name, verb, amt) =>
    match ActionT.ofVerb verb with
    | none => .error .valueError
    | some a =>
      .ok (name, a, match amt with | some n => .dec n | none => .nil)

abbrev Handler := List Char → Except PErr PATriple

/-- The ordered dispatch table of `ActionParser.parse`, one `(substring,
handler)` pair per entry, in source order. -/
def actionRules : List (String × Handler) := [
  ("Uncalled bet", parseUncalledH),
  (" collected ", parseCollectedH),
  (" doesn't show hand", parseMuckH),
  ("mucks hand", parseMuckH),
  ("joins the table", parseJoinH),
  ("leaves the table", parseLeaveH),
  ("has timed out", parseTimedOutH),
  ("is connected", parseConnectedH),
  ("is disconnected", parseDisconnectedH),
  ("was removed", parseRemovedH),
  (" shows ", parseShowH),
  (": ", parsePlayerActionH)]

/-- The first rule whose substring occurs in the line
(`ifilter(...).next()`). -/
def findRule (line : List Char) : List (String × Handler) → Option Handler
  | [] => none
  | (s, h) :: rest => if subIn s.data line then some h else findRule line rest

/-- `ActionParser.parse`: dispatch on the raw line, run the handler on the
stripped line, wrap the triple into a `_PlayerAction`; no matching
substring is the `UnknownActionError`. -/
def apParse (line : String) : Except PErr PlayerAction :=
  match findRule line.data actionRules with
  | none => .error .unknownAction
  | some h => (h (pyStrip line.data)).map fun t => ⟨t.1, t.2.1, t.2.2⟩

/-! ## Header grammar (`_header_re`)

The verbose header regex is hand-compiled piecewise.  Alternations whose
branches begin with disjoint characters and optional groups whose failure
leaves the following context unmatchable are compiled as committed choice;
the lazy `.+?` captures (game name, localized date, bracketed date) are
compiled as scans that retry the whole remaining pattern at every prefix
length, which is exactly the backtracking the regex engine performs on
them. -/

def pLit (pat : String) (cs : List Char) : Option (List Char) :=
  if prefixOf pat.data cs then some (cs.drop pat.data.length) else none

def pWs1 (cs : List Char) : Option (List Char) :=
  let ws := cs.takeWhile isWs
  if ws.isEmpty then none else some (cs.drop ws.length)

/-- `\s+` capturing the matched whitespace (the `limit` group spans it). -/
def pWs1Cap (cs : List Char) : Option (List Char × List Char) :=
  let ws := cs.takeWhile isWs
  if ws.isEmpty then none else some (ws, cs.drop ws.length)

def pDigits1 (cs : List Char) : Option (List Char × List Char) :=
  let ds := cs.takeWhile isDigitC
  if ds.isEmpty then none else some (ds, cs.drop ds.length)

def pNumber (cs : List Char) : Option (List Char × List Char) :=
  pNumThen cs fun r => some r

/-- The groups of the optional tournament part
`(Tournament\s+\#(?P<tournament_ident>\d+),\s+((?P<freeroll>Freeroll)|(
\$?(?P<buyin>...)(\+\$?(?P<rake>...))?(\s+(?P<currency>[A-Z]+))?))\s+)?`. -/
structure TournGroups where
  tid : List Char
  freeroll : Bool
  buyin : Option (List Char)
  rake : Option (List Char)
  currency : Option (List Char)

/-- `(\s+(?P<currency>[A-Z]+))?\s+`: the whitespace-delimited uppercase
currency code when one follows, else just the mandatory whitespace. -/
def pCurrencyThenWs (cs : List Char) : Option (Option (List Char) × List Char) :=
  match pWs1 cs with
  | none => none
  | some r1 =>
    let u := r1.takeWhile isUpperC
    if u.isEmpty then some (none, r1)
    else
      match pWs1 (r1.drop u.length) with
      | some r2 => some (some u, r2)
      | none => some (none, r1)

/-- The non-freeroll buy-in branch `\$?buyin(\+\$?rake)?` followed by the
currency-and-whitespace tail. -/
def pBuyin (cs : List Char) : Option ((Option (List Char) × Option (List Char) × Option (List Char)) × List Char) :=
  let r0 := match pLit "$" cs with | some r => r | none => cs
  match pNumber r0 with
  | none => none
  | some (buyin, r1) =>
    let (rake, r2) :=
      match pLit "+" r1 with
      | some ra =>
        let rb := match pLit "$" ra with | some r => r | none => ra
        match pNumber rb with
        | some (rk, rc) => (some rk, rc)
        | none => (none, r1)
      | none => (none, r1)
    match pCurrencyThenWs r2 with
    | some (cur, r3) => some ((some buyin, rake, cur), r3)
    | none => none

def pTournament (cs : List Char) : Option (TournGroups × List Char) :=
  match pLit "Tournament" cs with
  | none => none
  | some r1 =>
  match pWs1 r1 with
  | none => none
  | some r2 =>
  match pLit "#" r2 with
  | none => none
  | some r3 =>
  match pDigits1 r3 with
  | none => none
  | some (tid, r4) =>
  match pLit "," r4 with
  | none => none
  | some r5 =>
  match pWs1 r5 with
  | none => none
  | some r6 =>
    match pLit "Freeroll" r6 with
    | some r7 =>
      match pWs1 r7 with
      | some r8 => some (⟨tid, true, none, none, none⟩, r8)
      | none =>
        match pBuyin r6 with
        | some ((b, rk, cur), r8) => some (⟨tid, false, b, rk, cur⟩, r8)
        | none => none
    | none =>
      match pBuyin r6 with
      | some ((b, rk, cur), r8) => some (⟨tid, false, b, rk, cur⟩, r8)
      | none => none

/-- The blind alternation inside the parentheses, consumed together with
the closing `\)` (the cash branch starts with `\$`, so the regex falls
through to it exactly when the tournament-blind branch, with its closing
parenthesis, fails). -/
inductive BlindsRes where
  | tour (sb bb : List Char)
  | cash (sb bb : List Char) (cur : Option (List Char))

/-- Longest nonempty prefix of the leading `\S+` run whose remainder starts
with `\)` (the greedy capture giving characters back to the close paren). -/
def splitNonWsThenParen (cs : List Char) : Option (List Char × List Char) :=
  let run := cs.takeWhile fun c => !isWs c
  let rest := cs.drop run.length
  ((List.range (run.length + 1)).reverse.filterMap fun k =>
    if 1 ≤ k ∧ (run.drop k ++ rest).head? = some ')' then
      some (run.take k, (run.drop k ++ rest).drop 1)
    else none).head?

def pBlindsCash (cs : List Char) : Option (BlindsRes × List Char) :=
  match pLit "$" cs with
  | none => none
  | some r1 =>
  match pNumber r1 with
  | none => none
  | some (sb, r2) =>
  match pLit "/" r2 with
  | none => none
  | some r3 =>
  match pLit "$" r3 with
  | none => none
  | some r4 =>
  match pNumber r4 with
  | none => none
  | some (bb, r5) =>
    match pWs1 r5 with
    | some r6 =>
      match splitNonWsThenParen r6 with
      | some (cur, r7) => some (.cash sb bb (some cur), r7)
      | none => (pLit ")" r5).map fun r => (.cash sb bb none, r)
    | none => (pLit ")" r5).map fun r => (.cash sb bb none, r)

def pBlindsParen (cs : List Char) : Option (BlindsRes × List Char) :=
  match pDigits1 cs with
  | some (sb, r1) =>
    (match pLit "/" r1 with
     | some r2 =>
       match pDigits1 r2 with
       | some (bb, r3) =>
         (match pLit ")" r3 with
          | some r4 => some (.tour sb bb, r4)
          | none => pBlindsCash cs)
       | none => pBlindsCash cs
     | none => pBlindsCash cs)
  | none => pBlindsCash cs

/-- `(?:Pot\s+|No\s+|)Limit` with the captured text of the whole `limit`
group. -/
def pLimitAlt (cs : List Char) : Option (List Char × List Char) :=
  match (do
    let r1 ← pLit "Pot" cs
    let (w, r2) ← pWs1Cap r1
    let r3 ← pLit "Limit" r2
    pure (("Pot").data ++ w ++ ("Limit").data, r3)) with
  | some r => some r
  | none =>
    match (do
      let r1 ← pLit "No" cs
      let (w, r2) ← pWs1Cap r1
      let r3 ← pLit "Limit" r2
      pure (("No").data ++ w ++ ("Limit").data, r3)) with
    | some r => some r
    | none => (pLit "Limit" cs).map fun r => (("Limit").data, r)

/-- `(-\s+Level\s+(?P<tournament_level>\S+)\s+)?\(`: the optional level part
together with the mandatory opening parenthesis that follows it. -/
def pLevelOptParen (cs : List Char) : Option (Option (List Char) × List Char) :=
  match (do
    let r1 ← pLit "-" cs
    let r2 ← pWs1 r1
    let r3 ← pLit "Level" r2
    let r4 ← pWs1 r3
    let lvl := r4.takeWhile fun c => !isWs c
    if lvl.isEmpty then none else
    let r5 ← pWs1 (r4.drop lvl.length)
    let r6 ← pLit "(" r5
    pure (some lvl, r6)) with
  | some r => some r
  | none => (pLit "(" cs).map fun r => ((none : Option (List Char)), r)

/-- `\s+\[` tried at the current position (the stop condition of the lazy
localized-date capture). -/
def wsThenBracket (cs : List Char) : Option (List Char) :=
  (pWs1 cs).bind (pLit "[")

/-- `-\s+.+?\s+\[`: scan for the first prefix length at which `\s+\[`
matches, after at least one character. -/
def locScanAux : List Char → Option (List Char)
  | [] => none
  | c :: cs =>
    if isDot c then
      match wsThenBracket cs with
      | some r => some r
      | none => locScanAux cs
    else none

/-- `(?P<date>.+?)\]`: up to the first closing bracket usable as the stop
(at least one captured character). -/
def dateScan (acc : List Char) : List Char → Option (List Char × List Char)
  | [] => none
  | c :: cs =>
    if c = ']' ∧ ¬acc.isEmpty then some (acc, cs)
    else if isDot c then dateScan (acc ++ [c]) cs
    else none

/-- Everything after the lazy `game` capture:
`\s+(?P<limit>...Limit)\s+(level)?\((blinds)\)\s+-\s+.+?\s+\[(?P<date>.+?)\]`. -/
def gameTail (cs : List Char) :
    Option (List Char × Option (List Char) × BlindsRes × List Char) :=
  match pWs1 cs with
  | none => none
  | some r1 =>
  match pLimitAlt r1 with
  | none => none
  | some (lim, r2) =>
  match pWs1 r2 with
  | none => none
  | some r3 =>
  match pLevelOptParen r3 with
  | none => none
  | some (lvl, r4) =>
  match pBlindsParen r4 with
  | none => none
  | some (bl, r5) =>
  match pWs1 r5 with
  | none => none
  | some r6 =>
  match pLit "-" r6 with
  | none => none
  | some r7 =>
  match pWs1 r7 with
  | none => none
  | some r8 =>
  match locScanAux r8 with
  | none => none
  | some r9 =>
    match dateScan [] r9 with
    | none => none
    | some (date, _) => some (lim, lvl, bl, date)

/-- The lazy `(?P<game>.+?)` capture: grow one character at a time, trying
the full remaining pattern at each length. -/
def gameScanAux (game : List Char) : List Char →
    Option (List Char × List Char × Option (List Char) × BlindsRes × List Char)
  | [] => none
  | c :: cs =>
    if isDot c then
      let g := game ++ [c]
      match gameTail cs with
      | some (lim, lvl, bl, date) => some (g, lim, lvl, bl, date)
      | none => gameScanAux g cs
    else none

/-- The named capture groups of a successful `_header_re.match`. -/
structure HeaderMatch where
  ident : String
  tournamentIdent : Option String
  freeroll : Bool
  buyin : Option String
  rake : Option String
  currency : Option String
  game : String
  limit : String
  tournamentLevel : Option String
  sb : Option String
  bb : Option String
  cashSb : Option String
  cashBb : Option String
  cashCurrency : Option String
  date : String
  deriving DecidableEq, Repr

/-- Assembly of the named capture groups from the parsed pieces. -/
def mkHeaderMatch (ident : List Char) (tourn : Option TournGroups)
    (game lim : List Char) (lvl : Option (List Char)) (bl : BlindsRes)
    (date : List Char) : HeaderMatch :=
  { ident := ⟨ident⟩
    tournamentIdent := tourn.map fun t => (⟨t.tid⟩ : String)
    freeroll := match tourn with | some t => t.freeroll | none => false
    buyin := tourn.bind fun t => t.buyin.map fun b => (⟨b⟩ : String)
    rake := tourn.bind fun t => t.rake.map fun r => (⟨r⟩ : String)
    currency := tourn.bind fun t => t.currency.map fun c => (⟨c⟩ : String)
    game := ⟨game⟩
    limit := ⟨lim⟩
    tournamentLevel := lvl.map fun l => (⟨l⟩ : String)
    sb := match bl with | .tour s _ => some ⟨s⟩ | .cash _ _ _ => none
    bb := match bl with | .tour _ b => some ⟨b⟩ | .cash _ _ _ => none
    cashSb := match bl with | .tour _ _ => none | .cash s _ _ => some ⟨s⟩
    cashBb := match bl with | .tour _ _ => none | .cash _ b _ => some ⟨b⟩
    cashCurrency :=
      match bl with
      | .tour _ _ => none
      | .cash _ _ cur => cur.map fun c => (⟨c⟩ : String)
    date := ⟨date⟩ }

/-- The pattern from the `game` capture on, with the optional tournament
group skipped (all its groups `None`). -/
def headerSkipGroup (ident : List Char) (r8 : List Char) : Option HeaderMatch :=
  match gameScanAux [] r8 with
  | none => none
  | some (game, lim, lvl, bl, date) =>
    some (mkHeaderMatch ident none game lim lvl bl date)

/-- `_header_re.match`. The engine first matches the optional tournament
group in its preferred (greedy, left-alternative) reading and runs the rest
of the pattern from there; if the rest cannot match, it backtracks and
retries with the group skipped — that retry is the one backtracking choice
of the optional group that can turn a failure into a match, so it is
modelled explicitly. The engine's other retries inside the group (giving
back trailing whitespace to the lazy `game`, or giving a bare `[A-Z]+`
token back from the `currency` group) can only produce a match whose
`game` capture is a whitespace run or that token followed by the rest of
the group's text; on such lines the skipped-group reading matches as well
(the same tail succeeds from the same position), so the match/fail verdict
below agrees with the engine's everywhere, and the captures agree on every
line whose `game` capture the `Game` enum accepts. -/
def headerMatchC (cs : List Char) : Option HeaderMatch :=
  match pLit "PokerStars" cs with
  | none => none
  | some r1 =>
  match pWs1 r1 with
  | none => none
  | some r2 =>
  match pLit "Hand" r2 with
  | none => none
  | some r3 =>
  match pWs1 r3 with
  | none => none
  | some r4 =>
  match pLit "#" r4 with
  | none => none
  | some r5 =>
  match pDigits1 r5 with
  | none => none
  | some (ident, r6) =>
  match pLit ":" r6 with
  | none => none
  | some r7 =>
  match pWs1 r7 with
  | none => none
  | some r8 =>
    match pTournament r8 with
    | none => headerSkipGroup ident r8
    | some (tg, r9) =>
      match gameScanAux [] r9 with
      | some (game, lim, lvl, bl, date) =>
        some (mkHeaderMatch ident (some tg) game lim lvl bl date)
      | none => headerSkipGroup ident r8

def headerMatch (line : String) : Option HeaderMatch := headerMatchC line.data

/-! ## The remaining line patterns -/

/-- `_table_re`: `^Table '(.*)' (\d+)-max Seat #(?P<button>\d+) is the button`. -/
structure TableMatch where
  name : String
  maxPlayers : Nat
  button : Nat
  deriving DecidableEq, Repr

/-- The part after the greedy table-name capture:
`' (\d+)-max Seat #(\d+) is the button`. -/
def tableTail (cs : List Char) : Option (Nat × Nat) :=
  match pLit "' " cs with
  | none => none
  | some r1 =>
  match pDigits1 r1 with
  | none => none
  | some (mp, r2) =>
  match pLit "-max Seat #" r2 with
  | none => none
  | some r3 =>
  match pDigits1 r3 with
  | none => none
  | some (b, r4) =>
    (pLit " is the button" r4).map fun _ => (digitsToNat mp, digitsToNat b)

/-- The greedy `(.*)` name capture: longest newline-free prefix whose
remainder matches the tail. -/
def tableMatchC (cs : List Char) : Option TableMatch :=
  match pLit "Table '" cs with
  | none => none
  | some r =>
    ((List.range (r.length + 1)).reverse.filterMap fun k =>
      if (r.take k).all isDot then
        (tableTail (r.drop k)).map fun mb => (⟨(⟨r.take k⟩ : String), mb.1, mb.2⟩ : TableMatch)
      else none).head?

/-- `_seat_re` after the lazy name:
` \(\$?(?P<stack>\d+(\.\d+)?) in chips\)`. -/
def seatTail (cs : List Char) : Option (List Char) :=
  match pLit " (" cs with
  | none => none
  | some r1 =>
    let r2 := match pLit "$" r1 with | some r => r | none => r1
    (pNumThen r2 (pLit " in chips)")).map Prod.fst

def seatScanAux (name : List Char) : List Char → Option (List Char × List Char)
  | [] => none
  | c :: cs =>
    if isDot c then
      let n' := name ++ [c]
      match seatTail cs with
      | some stack => some (n', stack)
      | none => seatScanAux n' cs
    else none

/-- `_seat_re`:
`^Seat (?P<seat>\d+): (?P<name>.+?) \(\$?(?P<stack>\d+(\.\d+)?) in chips\)`;
yields (seat digits, name, stack digits). -/
def seatMatchC (cs : List Char) : Option (List Char × String × String) :=
  match pLit "Seat " cs with
  | none => none
  | some r1 =>
  match pDigits1 r1 with
  | none => none
  | some (seat, r2) =>
  match pLit ": " r2 with
  | none => none
  | some r3 =>
    (seatScanAux [] r3).map fun ns => (seat, (⟨ns.1⟩ : String), (⟨ns.2⟩ : String))

/-- `_hero_re` after the lazy name: ` \[(?P<cards>.+?)\]`. -/
def heroTail (cs : List Char) : Option (List Char) :=
  match pLit " [" cs with
  | none => none
  | some r => (dateScan [] r).map Prod.fst

def heroScanAux (name : List Char) : List Char → Option (String × List Char)
  | [] => none
  | c :: cs =>
    if isDot c then
      let n' := name ++ [c]
      match heroTail cs with
      | some cards => some ((⟨n'⟩ : String), cards)
      | none => heroScanAux n' cs
    else none

/-- `_hero_re`: `^Dealt to (?P<hero_name>.+?) \[(?P<cards>.+?)\]`. -/
def heroMatchC (cs : List Char) : Option (String × List Char) :=
  match pLit "Dealt to " cs with
  | none => none
  | some r => heroScanAux [] r

/-- `re.findall(r'(..\b)', cards)` of `_parse_hero`: non-overlapping
two-character chunks ending at a word boundary. -/
def boundaryAfter (c : Char) : List Char → Bool
  | [] => isWordC c
  | d :: _ => isWordC c != isWordC d

def findPairs : List Char → List (List Char)
  | c1 :: c2 :: rest =>
    if isDot c1 ∧ isDot c2 ∧ boundaryAfter c2 rest then
      [c1, c2] :: findPairs rest
    else findPairs (c2 :: rest)
  | _ => []

/-- `.*\| Rake [^\d]*?(\d+(?:\.\d+)?)`: the greedy `.*` commits to the last
`| Rake ` occurrence after which a number can still be found. -/
def rakeScan (cs : List Char) : Option (List Char) :=
  ((List.range (cs.length + 1)).reverse.filterMap fun j =>
    if (cs.take j).all isDot ∧ prefixOf ("| Rake ").data (cs.drop j) then
      match skipToDigit ((cs.drop j).drop 7) with
      | some ds => pNumEnd ds
      | none => none
    else none).head?

/-- `_pot_re`:
`^Total pot [^\d]*?(\d+(?:\.\d+)?) .*\| Rake [^\d]*?(\d+(?:\.\d+)?)`;
yields the two captured numbers (total pot, rake). -/
def potMatchC (cs : List Char) : Option (String × String) :=
  match pLit "Total pot " cs with
  | none => none
  | some r1 =>
  match skipToDigit r1 with
  | none => none
  | some r2 =>
  match pNumThen r2 (pLit " ") with
  | none => none
  | some (n, r3) =>
    (rakeScan r3).map fun m => ((⟨n⟩ : String), (⟨m⟩ : String))

def potMatch (line : String) : Option (String × String) := potMatchC line.data

/-- `.+?` up to a closing character usable as the stop, retrying the
continuation at every further occurrence (the lazy group of
`(?:\(.+?\))?` and `\[.+?\]`). -/
def lazyCloseThen {α : Type} (close : Char) (k : List Char → Option α) :
    List Char → List Char → Option α
  | _, [] => none
  | acc, c :: cs =>
    if c = close ∧ ¬acc.isEmpty then
      match k cs with
      | some v => some v
      | none => if isDot c then lazyCloseThen close k (acc ++ [c]) cs else none
    else if isDot c then lazyCloseThen close k (acc ++ [c]) cs else none

/-- The tail of `_winner_re` after the optional parts:
` collected \([^\d]*?(?P<amount>\d+(?:\.\d+)?)\)`. -/
def winnerLit (r : List Char) : Option Unit :=
  match pLit " collected (" r with
  | none => none
  | some r1 =>
    match skipToDigit r1 with
    | none => none
    | some ds => (pNumThen ds (pLit ")")).map fun _ => ()

/-- The tail of `_showdown_re` after the optional parts:
` showed \[.+?\] and won`. -/
def showdownLit (r : List Char) : Option Unit :=
  match pLit " showed [" r with
  | none => none
  | some r1 => lazyCloseThen ']' (fun r2 => (pLit " and won" r2).map fun _ => ()) [] r1

/-- `(?:\(.+?\))?` before a literal tail, with the greedy option dropped
when no completion succeeds. -/
def parenOptThen (lit : List Char → Option Unit) (r : List Char) : Option Unit :=
  match r with
  | '(' :: r1 =>
    match lazyCloseThen ')' lit [] r1 with
    | some v => some v
    | none => lit r
  | _ => lit r

/-- `\s?` before the optional paren group (greedy, dropped on failure). -/
def wsOptThen (lit : List Char → Option Unit) (r : List Char) : Option Unit :=
  match r with
  | c :: cs =>
    if isWs c then
      match parenOptThen lit cs with
      | some v => some v
      | none => parenOptThen lit r
    else parenOptThen lit r
  | [] => none

def seatNameScan (lit : List Char → Option Unit) (name : List Char) :
    List Char → Option String
  | [] => none
  | c :: cs =>
    if isDot c then
      let n' := name ++ [c]
      match wsOptThen lit cs with
      | some _ => some ⟨n'⟩
      | none => seatNameScan lit n' cs
    else none

/-- The shared skeleton of `_winner_re` and `_showdown_re`:
`^Seat (?:\d+): (?P<name>.+?)\s?(?:\(.+?\))?` followed by `lit`. -/
def seatNameMatch (lit : List Char → Option Unit) (cs : List Char) : Option String :=
  match pLit "Seat " cs with
  | none => none
  | some r1 =>
  match pDigits1 r1 with
  | none => none
  | some (_, r2) =>
  match pLit ": " r2 with
  | none => none
  | some r3 => seatNameScan lit [] r3

def winnerMatchC (cs : List Char) : Option String := seatNameMatch winnerLit cs

def showdownMatchC (cs : List Char) : Option String := seatNameMatch showdownLit cs

/-- `_board_re.findall`: `(?<=[\[ ])(..)(?=[\] ])`, scanned left to right
without overlap. -/
def boardFindallAux (prev : Char) : List Char → List (List Char)
  | c1 :: c2 :: c3 :: rest =>
    if (prev = '[' ∨ prev = ' ') ∧ isDot c1 ∧ isDot c2 ∧ (c3 = ']' ∨ c3 = ' ') then
      [c1, c2] :: boardFindallAux c2 (c3 :: rest)
    else boardFindallAux c1 (c2 :: c3 :: rest)
  | _ => []

def boardFindall (cs : List Char) : List (List Char) := boardFindallAux '\x00' cs

/-! ## The hand state and the parse pipeline

A `HandSt` embeds the attribute dictionary of a `PokerStarsHandHistory`
instance: an outer `none` means the attribute was never assigned (reading it
would raise `AttributeError`), `some v` an assigned value, which may itself
be Python `None` for the doubly wrapped fields.  Each `_parse_*` method
becomes a step `HandSt → HandSt × Option PErr`: the returned state keeps the
partial mutations a raising Python method leaves behind, and the error slot
carries the exception. -/

/-- The `hh._Player` named tuple (stack kept as the captured digit text). -/
structure Player where
  name : String
  stack : String
  seat : Nat
  combo : Option Combo
  deriving DecidableEq, Repr

/-- A `_Street`: three board cards and the street's actions (`None` when
no action line parsed). -/
structure Street where
  cards : List Card
  actions : Option (List PlayerAction)
  deriving DecidableEq, Repr

structure HandSt where
  splitted : List String
  headerParsed : Bool := false
  parsed : Bool := false
  extraSet : Bool := false
  moneyType : Option MoneyType := none
  ident : Option String := none
  sb : Option String := none
  bb : Option String := none
  gameType : Option GameType := none
  tournamentIdent : Option (Option String) := none
  tournamentLevel : Option (Option String) := none
  buyin : Option (Option String) := none
  rake : Option (Option String) := none
  currency : Option (Option CurrencyT) := none
  game : Option GameT := none
  limit : Option LimitT := none
  date : Option String := none
  tableMatch : Option TableMatch := none
  tableName : Option String := none
  maxPlayers : Option Nat := none
  players : Option (List Player) := none
  button : Option Player := none
  hero : Option (Option Player) := none
  preflopActions : Option (Option (List PlayerAction)) := none
  flop : Option (Option Street) := none
  flopActions : Option (Option (List PlayerAction)) := none
  turn : Option (Option Card) := none
  turnActions : Option (Option (List PlayerAction)) := none
  river : Option (Option Card) := none
  riverActions : Option (Option (List PlayerAction)) := none
  showDown : Option Bool := none
  showDownActions : Option (Option (List PlayerAction)) := none
  totalPot : Option String := none
  winners : Option (List String) := none
  deriving DecidableEq, Repr

/-- `_sections`: the indices of the empty segments of the splitted text
(modelled from the spec's Section Splitter contract; the splitter itself
lives in the base module outside the sources). -/
def sectionsOf (s : List String) : List Nat :=
  (List.range s.length).filter fun i => s.get? i = some ""

def initSt (splitted : List String) : HandSt := { splitted := splitted }

/-- The tail of `parse_header` after currency resolution: the game and
limit enum lookups (each may raise `ValueError`), then the date
(`_parse_date` of the missing base class is modelled from the spec as
storing the canonical bracketed stamp) and the phase-1 flag. -/
def parseHeaderTail (h : HandSt) (m : HeaderMatch) : HandSt × Option PErr :=
  match GameT.ofString m.game with
  | none => (h, some .valueError)
  | some g =>
    let h := { h with game := some g }
    match LimitT.ofString m.limit with
    | none => (h, some .valueError)
    | some l =>
      ({ h with limit := some l, date := some m.date, headerParsed := true }, none)

/-- The tournament/cash branch of `parse_header`: the game-type dependent
field assignments, paired with the currency group read in that branch. -/
def parseHeaderBranch (h : HandSt) (m : HeaderMatch) : HandSt × Option String :=
  match m.tournamentIdent with
  | some tid =>
    ({ h with gameType := some .TOUR, tournamentIdent := some (some tid),
              tournamentLevel := some m.tournamentLevel,
              buyin := some (some (m.buyin.getD "0")),
              rake := some (some (m.rake.getD "0")) }, m.currency)
  | none =>
    ({ h with gameType := some .CASH, tournamentIdent := some none,
              tournamentLevel := some none, buyin := some none,
              rake := some none }, m.cashCurrency)

/-- The money-type/currency statements of `parse_header`, given the
already freeroll-defaulted currency string. -/
def parseHeaderMoney (h : HandSt) (m : HeaderMatch) (cur : Option String) :
    HandSt × Option PErr :=
  match cur with
  | none =>
    parseHeaderTail { h with moneyType := some .PLAY, currency := some none } m
  | some c =>
    let h := { h with moneyType := some .REAL }
    match CurrencyT.ofString c with
    | none => (h, some .valueError)
    | some cu => parseHeaderTail { h with currency := some (some cu) } m

/-- `parse_header`, statement by statement (`_split_raw` is implicit in the
splitted representation); the successive attribute assignments appear as
accumulated record updates in each branch. -/
def parseHeaderSt (h : HandSt) : HandSt × Option PErr :=
  match h.splitted.get? 0 with
  | none => (h, some .indexError)
  | some line0 =>
    match headerMatch line0 with
    | none => ({ h with extraSet := true }, some .attributeError)
    | some m =>
      match m.sb <|> m.cashSb with
      | none => ({ h with extraSet := true, ident := some m.ident }, some .typeError)
      | some sbv =>
      match m.bb <|> m.cashBb with
      | none =>
        ({ h with extraSet := true, ident := some m.ident, sb := some sbv },
         some .typeError)
      | some bbv =>
      let hcur := parseHeaderBranch
        { h with extraSet := true, ident := some m.ident,
                 sb := some sbv, bb := some bbv } m
      parseHeaderMoney hcur.1 m
        (if m.freeroll ∧ hcur.2 = none then some "USD" else hcur.2)

/-- `_parse_table`. -/
def parseTableSt (h : HandSt) : HandSt × Option PErr :=
  match h.splitted.get? 1 with
  | none => (h, some .indexError)
  | some l =>
    match tableMatchC l.data with
    | none => (h, some .attributeError)
    | some tm =>
      ({ h with tableMatch := some tm, tableName := some tm.name,
                maxPlayers := some tm.maxPlayers }, none)

/-- Modelled from the spec: `_init_seats` of the missing base class creates
the fixed-size seat list with explicit empty placeholders (named
`Empty Seat N` with a zero stack, as the test-suite shows them). -/
def initSeats (n : Nat) : List Player :=
  (List.range n).map fun i => ⟨"Empty Seat " ++ toString (i + 1), "0", i + 1, none⟩

/-- The seat-line loop of `_parse_players`: stop at the first non-matching
line, assign `players[seat - 1]` for each match. -/
def seatLoop : List Player → List String → List Player × Option PErr
  | ps, [] => (ps, none)
  | ps, l :: ls =>
    match seatMatchC l.data with
    | none => (ps, none)
    | some (seatDs, name, stack) =>
      let seat := digitsToNat seatDs
      match pySet ps ((seat : Int) - 1) ⟨name, stack, seat, none⟩ with
      | none => (ps, some .indexError)
      | some ps' => seatLoop ps' ls

/-- `_parse_players`. -/
def parsePlayersSt (h : HandSt) : HandSt × Option PErr :=
  match h.maxPlayers with
  | none => (h, some .attributeError)
  | some mp =>
    let r := seatLoop (initSeats mp) (h.splitted.drop 2)
    ({ h with players := some r.1 }, r.2)

/-- `_parse_button`: `self.players[button_seat - 1]` with Python index
semantics. -/
def parseButtonSt (h : HandSt) : HandSt × Option PErr :=
  match h.tableMatch, h.players with
  | some tm, some ps =>
    match pyGet ps ((tm.button : Int) - 1) with
    | none => (h, some .indexError)
    | some p => ({ h with button := some p }, none)
  | _, _ => (h, some .attributeError)

/-- `_parse_hero`.  `_get_hero_from_players` is modelled from the spec: a
hero name not found in the seat list means no hero, not an error.  The
`except AttributeError` of the source turns a failed hero-line match (and
the unassigned-attribute reads inside the `try`) into `hero = None`. -/
def parseHeroSt (h : HandSt) : HandSt × Option PErr :=
  match (sectionsOf h.splitted).get? 0 with
  | none => (h, some .indexError)
  | some s0 =>
    match h.splitted.get? (s0 + 2) with
    | none => (h, some .indexError)
    | some line =>
      match heroMatchC line.data with
      | none => ({ h with hero := some none }, none)
      | some (heroName, cardsStr) =>
        match h.players with
        | none => ({ h with hero := some none }, none)
        | some ps =>
          match ps.findIdx? (fun p => p.name == heroName) with
          | none => ({ h with hero := some none }, none)
          | some idx =>
            match comboFromArray (findPairs cardsStr) with
            | none => (h, some .valueError)
            | some cb =>
              match ps.get? idx with
              | none => (h, some .indexError)
              | some p0 =>
                let heroP := { p0 with combo := some cb }
                let h := { h with hero := some (some heroP),
                                  players := some (ps.set idx heroP) }
                match h.button with
                | some b =>
                  if b.name = heroP.name then ({ h with button := some heroP }, none)
                  else (h, none)
                | none => ({ h with hero := some none }, none)

/-- The shared skip-and-log action loop (`_parse_preflop`,
`_Street._parse_actions`, `_parse_street`, `_parse_showdown` all inline
it): parse each line, append on success, drop the line on
`UnknownActionError`, abort on any other exception. -/
def parseActionLoop : List String → Except PErr (List PlayerAction)
  | [] => .ok []
  | l :: ls =>
    match apParse l with
    | .ok a =>
      match parseActionLoop ls with
      | .ok as => .ok (a :: as)
      | .error e => .error e
    | .error .unknownAction => parseActionLoop ls
    | .error e => .error e

/-- Python list slice `l[a:b]` with clipping. -/
def pySliceL {α : Type} (l : List α) (a b : Nat) : List α := (l.drop a).take (b - a)

/-- `_parse_preflop`: lines `sections[0] + 3` up to `sections[1]`. -/
def parsePreflopSt (h : HandSt) : HandSt × Option PErr :=
  let secs := sectionsOf h.splitted
  match secs.get? 0, secs.get? 1 with
  | some s0, some s1 =>
    match parseActionLoop (pySliceL h.splitted (s0 + 3) s1) with
    | .ok acts =>
      ({ h with preflopActions := some (if acts.isEmpty then none else some acts) }, none)
    | .error e => (h, some e)
  | _, _ => (h, some .indexError)

/-- `self._splitted.index('', start)`. -/
def findEmptyFrom (s : List String) (start : Nat) : Option Nat :=
  ((s.drop start).findIdx? (· == "")).map (· + start)

/-- `_Street.__init__`, modelled from the spec at its (missing) base-class
skeleton: the first line is the board-card line (`_parse_cards`, in the
sources), the rest feed the action loop (`_parse_actions`, in the
sources). -/
def streetMk (lines : List String) : Except PErr Street :=
  match lines.get? 0 with
  | none => .error .indexError
  | some bl =>
    match Card.ofChars (pySlice bl.data 1 3), Card.ofChars (pySlice bl.data 4 6),
          Card.ofChars (pySlice bl.data 7 9) with
    | some a, some b, some c =>
      match parseActionLoop (lines.drop 1) with
      | .error e => .error e
      | .ok acts => .ok ⟨[a, b, c], if acts.isEmpty then none else some acts⟩
    | _, _, _ => .error .valueError

/-- `_parse_flop`: absent marker assigns `flop = None` and returns
(`flop_actions` stays unassigned); the second `.index` and the street
construction are outside the `try` and so abort on failure. -/
def parseFlopSt (h : HandSt) : HandSt × Option PErr :=
  match h.splitted.findIdx? (· == "FLOP") with
  | none => ({ h with flop := some none }, none)
  | some i =>
    match findEmptyFrom h.splitted (i + 1) with
    | none => (h, some .valueError)
    | some stop =>
      match streetMk (pySliceL h.splitted (i + 1) stop) with
      | .error e => (h, some e)
      | .ok st => ({ h with flop := some (some st), flopActions := some st.actions }, none)

/-- The `try` body of `_parse_street`: `ValueError` anywhere inside it
(missing marker, missing empty stop, enum lookup or combo validation in a
handler) is caught and yields the street-absent assignment; other
exceptions propagate. -/
inductive StreetOutcome where
  | ok (acts : Option (List PlayerAction))
  | caught
  | err (e : PErr)

def streetTry (s : List String) (marker : String) : StreetOutcome :=
  match s.findIdx? (· == marker) with
  | none => .caught
  | some i =>
    match findEmptyFrom s (i + 2) with
    | none => .caught
    | some stop =>
      match parseActionLoop (pySliceL s (i + 2) stop) with
      | .ok acts => .ok (if acts.isEmpty then none else some acts)
      | .error .valueError => .caught
      | .error e => .err e

/-- `_parse_street('turn')`: on success only the action list is assigned
(the turn card itself is set later from the summary board line). -/
def parseTurnSt (h : HandSt) : HandSt × Option PErr :=
  match streetTry h.splitted "TURN" with
  | .ok acts => ({ h with turnActions := some acts }, none)
  | .caught => ({ h with turn := some none, turnActions := some none }, none)
  | .err e => (h, some e)

/-- `_parse_street('river')`. -/
def parseRiverSt (h : HandSt) : HandSt × Option PErr :=
  match streetTry h.splitted "RIVER" with
  | .ok acts => ({ h with riverActions := some acts }, none)
  | .caught => ({ h with river := some none, riverActions := some none }, none)
  | .err e => (h, some e)

/-- `_parse_showdown`: the flag records whether the marker section parsed;
the action tuple is kept even when empty. -/
def parseShowdownSt (h : HandSt) : HandSt × Option PErr :=
  match h.splitted.findIdx? (· == "SHOW DOWN") with
  | none => ({ h with showDown := some false, showDownActions := some none }, none)
  | some i =>
    match findEmptyFrom h.splitted (i + 1) with
    | none => ({ h with showDown := some false, showDownActions := some none }, none)
    | some stop =>
      match parseActionLoop (pySliceL h.splitted (i + 1) stop) with
      | .ok acts =>
        ({ h with showDown := some true, showDownActions := some (some acts) }, none)
      | .error .valueError =>
        ({ h with showDown := some false, showDownActions := some none }, none)
      | .error e => (h, some e)

/-- `_parse_pot`: only the first capture group is kept; the rake group is
matched and discarded. -/
def parsePotSt (h : HandSt) : HandSt × Option PErr :=
  match (sectionsOf h.splitted).getLast? with
  | none => (h, some .indexError)
  | some k =>
    match h.splitted.get? (k + 2) with
    | none => (h, some .indexError)
    | some l =>
      match potMatchC l.data with
      | none => (h, some .attributeError)
      | some nm => ({ h with totalPot := some nm.1 }, none)

/-- `_parse_board`: a non-`Board` line leaves turn and river untouched;
otherwise they are (re)assigned from the recap cards. -/
def parseBoardSt (h : HandSt) : HandSt × Option PErr :=
  match (sectionsOf h.splitted).getLast? with
  | none => (h, some .indexError)
  | some k =>
    match h.splitted.get? (k + 3) with
    | none => (h, some .indexError)
    | some bl =>
      if ¬ prefixOf ("Board").data bl.data then (h, none)
      else
        let cards := boardFindall bl.data
        match cards.get? 3 with
        | none => ({ h with turn := some none, river := some none }, none)
        | some c3 =>
          match Card.ofChars c3 with
          | none => (h, some .valueError)
          | some tc =>
            let h := { h with turn := some (some tc) }
            match cards.get? 4 with
            | none => ({ h with river := some none }, none)
            | some c4 =>
              match Card.ofChars c4 with
              | none => (h, some .valueError)
              | some rc => ({ h with river := some (some rc) }, none)

/-- Python `set.add` embedded as order-preserving duplicate-free insertion
(the set's iteration order is unspecified in Python; the claims about
`winners` are therefore stated as membership). -/
def setAdd (acc : List String) (n : String) : List String :=
  if n ∈ acc then acc else acc ++ [n]

/-- The scan loop of `_parse_winners` over `splitted[sections[-1] + 4:]`. -/
def winnersLoop (sd : Bool) (acc : List String) :
    List String → List String × Option PErr
  | [] => (acc, none)
  | l :: ls =>
    if ¬sd ∧ subIn ("collected").data l.data then
      match winnerMatchC l.data with
      | none => (acc, some .attributeError)
      | some name => winnersLoop sd (setAdd acc name) ls
    else if sd ∧ subIn ("won").data l.data then
      match showdownMatchC l.data with
      | none => (acc, some .attributeError)
      | some name => winnersLoop sd (setAdd acc name) ls
    else winnersLoop sd acc ls

/-- `_parse_winners`. -/
def parseWinnersSt (h : HandSt) : HandSt × Option PErr :=
  match h.showDown with
  | none => (h, some .attributeError)
  | some sd =>
    match (sectionsOf h.splitted).getLast? with
    | none => (h, some .indexError)
    | some k =>
      match winnersLoop sd [] (h.splitted.drop (k + 4)) with
      | (ws, none) => ({ h with winners := some ws }, none)
      | (_, some e) => (h, some e)

/-- Exception propagation between the statements of `parse`. -/
def stepSeq (r : HandSt × Option PErr) (f : HandSt → HandSt × Option PErr) :
    HandSt × Option PErr :=
  match r with
  | (h, none) => f h
  | (h, some e) => (h, some e)

/-- The `if not self.header_parsed: self.parse_header()` guard of `parse`. -/
def parseHeaderIfNeeded (h : HandSt) : HandSt × Option PErr :=
  if h.headerParsed then (h, none) else parseHeaderSt h

/-- `parse`: the full body parse in source order. -/
def parseSt (h : HandSt) : HandSt × Option PErr :=
  let r := parseHeaderIfNeeded h
  let r := stepSeq r parseTableSt
  let r := stepSeq r parsePlayersSt
  let r := stepSeq r parseButtonSt
  let r := stepSeq r parseHeroSt
  let r := stepSeq r parsePreflopSt
  let r := stepSeq r parseFlopSt
  let r := stepSeq r parseTurnSt
  let r := stepSeq r parseRiverSt
  let r := stepSeq r parseShowdownSt
  let r := stepSeq r parsePotSt
  let r := stepSeq r parseBoardSt
  let r := stepSeq r parseWinnersSt
  stepSeq r fun h => ({ h with parsed := true }, none)

/-- Full parse of a freshly constructed instance. -/
def parseFull (splitted : List String) : HandSt × Option PErr :=
  parseSt (initSt splitted)

/-- Modelled from the spec: the derived `board` read property of the
missing base class — flop cards, then the turn and, under it, the river. -/
def HandSt.board (h : HandSt) : Option (List Card) :=
  match h.flop with
  | some (some st) =>
    some (st.cards ++
      match h.turn with
      | some (some t) =>
        [t] ++ (match h.river with | some (some r) => [r] | _ => [])
      | _ => [])
  | _ => none

/-- The currency resolution of `parse_header` as the code performs it: the
currency capture group of the matched game-type branch, with the freeroll
fallback to USD. -/
def resolvedCur (m : HeaderMatch) : Option String :=
  let cur0 :=
    match m.tournamentIdent with
    | some _ => m.currency
    | none => m.cashCurrency
  if m.freeroll ∧ cur0 = none then some "USD" else cur0

/-! ## Concrete hands (splitted segment lists) used by witnesses and
counterexamples -/

/-- A small valid tournament hand that folds out preflop: no FLOP, TURN,
RIVER, or SHOW DOWN markers, no Board recap line. -/
def ex1 : List String := [
  "PokerStars Hand #105024000105: Tournament #797469411, $3.19+$0.31 USD Hold'em No Limit - Level I (10/20) - 2013/10/04 13:53:27 ET [2013/10/04 13:53:27 ET]",
  "Table '797469411 15' 9-max Seat #1 is the button",
  "Seat 1: flettl2 (1500 in chips)",
  "Seat 2: santy312 (3000 in chips)",
  "", "HOLE CARDS",
  "Dealt to santy312 [Ac Jh]",
  "flettl2: folds",
  "santy312 collected 30 from pot",
  "", "SUMMARY",
  "Total pot 30 | Rake 0",
  "Seat 1: flettl2 folded before Flop (didn't bet)",
  "Seat 2: santy312 collected (30)"]

/-- A valid hand whose summary has no Board recap line and whose only
`collected` seat line sits directly after the pot line (at index
`sections[-1] + 3`). -/
def exC5 : List String := [
  "PokerStars Hand #7: Tournament #8, 5 Hold'em No Limit - Level I (10/20) - x [2013/10/04 14:00:00 ET]",
  "Table 't5' 2-max Seat #1 is the button",
  "Seat 1: aa (1500 in chips)",
  "Seat 2: bb (3000 in chips)",
  "", "HOLE CARDS",
  "Dealt to aa [Ac Jh]",
  "aa: folds",
  "bb collected 30 from pot",
  "", "SUMMARY",
  "Total pot 30 | Rake 0",
  "Seat 2: bb collected (30)"]

/-- A hand with a TURN section and a four-card Board recap line but no
FLOP marker. -/
def exC6 : List String := [
  "PokerStars Hand #2: Tournament #3, 5 Hold'em No Limit - Level I (10/20) - x [2013/10/04 14:10:00 ET]",
  "Table 't6' 2-max Seat #1 is the button",
  "Seat 1: aa (1500 in chips)",
  "Seat 2: bb (3000 in chips)",
  "", "HOLE CARDS",
  "Dealt to aa [Ac Jh]",
  "aa: folds",
  "", "TURN",
  "[2s 6d 6h] [8c]",
  "bb: checks",
  "", "SUMMARY",
  "Total pot 30 | Rake 0",
  "Board [2s 6d 6h 8c]",
  "Seat 2: bb collected (30)"]

/-- The header line of a grammar-accepted tournament hand whose blinds use
the cash sub-format with an explicit trailing currency code. -/
def hdrC4 : String :=
  "PokerStars Hand #1: Tournament #2, 10 Hold'em No Limit ($1.00/$2.00 USD) - 2013/10/04 13:53:27 ET [2013/10/04 13:53:27 ET]"

/-! ## Theorems -/

/-- `findRule` returns the handler of the first rule whose substring
occurs in the line. -/
theorem findRule_first_match (line : List Char) :
    ∀ (rules : List (String × Handler)) (i : Nat) (r : String × Handler),
      rules.get? i = some r →
      (∀ j r', j < i → rules.get? j = some r' → subIn r'.1.data line = false) →
      subIn r.1.data line = true →
      findRule line rules = some r.2 := by
  intro rules
  induction rules with
  | nil => intro i r hget _ _; simp at hget
  | cons hd tl ih =>
    intro i r hget hfirst hm
    cases i with
    | zero =>
      rw [List.get?_cons_zero] at hget
      injection hget with hget
      subst hget
      simp only [findRule, hm, if_true]
    | succ n =>
      have h0 := hfirst 0 hd (Nat.succ_pos n) (List.get?_cons_zero)
      rw [List.get?_cons_succ] at hget
      simp only [findRule, h0, Bool.false_eq_true, if_false]
      exact ih n r hget (fun j r' hj hg => hfirst (j + 1) r' (Nat.succ_lt_succ hj) hg) hm

/-- C1: the action classifier dispatches by first matching substring over
the fixed rule order of `actionRules`; whenever rule `i` matches the line
and no earlier rule does, `parse` returns exactly what rule `i`'s handler
produces on the stripped line — even when later rules also match. -/
theorem actionParser_first_matching_rule (line : String) (i : Nat)
    (r : String × Handler)
    (hr : actionRules.get? i = some r)
    (hfirst : ∀ j r', j < i → actionRules.get? j = some r' →
      subIn r'.1.data line.data = false)
    (hm : subIn r.1.data line.data = true) :
    apParse line = (r.2 (pyStrip line.data)).map fun t => ⟨t.1, t.2.1, t.2.2⟩ := by
  unfold apParse
  rw [findRule_first_match line.data actionRules i r hr hfirst hm]

theorem actionParser_first_matching_rule_witness :
    (apParse "a collected 10 mucks hand" =
      (parseCollectedH (pyStrip ("a collected 10 mucks hand").data)).map
        fun t => ⟨t.1, t.2.1, t.2.2⟩) ∧
    subIn (" collected ").data ("a collected 10 mucks hand").data = true ∧
    subIn ("mucks hand").data ("a collected 10 mucks hand").data = true := by
  refine ⟨?_, rfl, rfl⟩
  refine actionParser_first_matching_rule "a collected 10 mucks hand" 1
    (" collected ", parseCollectedH) rfl ?_ rfl
  intro j r' hj hg
  have hj0 : j = 0 := Nat.lt_one_iff.mp hj
  subst hj0
  have h' : some (("Uncalled bet", parseUncalledH) : String × Handler) = some r' := hg
  injection h' with h''
  rw [← h'']
  rfl

/-- C2: a body line matching no classifier rule is the absorbed
`UnknownActionError`: the shared action loop of the preflop, street and
showdown parsers produces, without failing, exactly the action sequence of
the same lines with the offending line removed. -/
theorem unknown_action_line_skipped (xs ys : List String) (bad : String)
    (hbad : apParse bad = .error .unknownAction) :
    parseActionLoop (xs ++ bad :: ys) = parseActionLoop (xs ++ ys) := by
  induction xs with
  | nil => simp only [List.nil_append, parseActionLoop, hbad]
  | cons x xs ih => simp only [List.cons_append, parseActionLoop, List.append_eq, ih]

theorem unknown_action_line_skipped_witness :
    parseActionLoop ["a: folds", "gibberish line", "b: checks"] =
      parseActionLoop ["a: folds", "b: checks"] ∧
    apParse "gibberish line" = .error .unknownAction :=
  ⟨unknown_action_line_skipped ["a: folds"] ["b: checks"] "gibberish line" rfl, rfl⟩

/-- C7 (amended): a header line the grammar rejects makes `parse_header`
fail — with the built-in attribute error of the failed match, not a
dedicated header-format error class, which the code never defines — before
any header field is extracted; only the `extra` dict has already been
initialized (empty), and the hand never reaches the header-parsed phase. -/
theorem header_no_match_failure (line : String) (rest : List String)
    (hm : headerMatch line = none) :
    parseHeaderSt (initSt (line :: rest)) =
      ({ initSt (line :: rest) with extraSet := true }, some .attributeError) := by
  unfold parseHeaderSt initSt
  simp [hm]

theorem header_failure_counterexample :
    headerMatch "garbage" = none ∧
    (parseHeaderSt (initSt ["garbage"])).2 = some PErr.attributeError ∧
    PErr.attributeError ≠ PErr.headerFormatError ∧
    (parseHeaderSt (initSt ["garbage"])).1.extraSet = true ∧
    (parseHeaderSt (initSt ["garbage"])).1.headerParsed = false :=
  ⟨rfl, rfl, by decide, rfl, rfl⟩

theorem header_no_match_failure_witness :
    parseHeaderSt (initSt ["garbage"]) =
      ({ initSt ["garbage"] with extraSet := true }, some .attributeError) :=
  header_no_match_failure "garbage" [] rfl

/-- C9: full parsing is deterministic — two successful full parses of the
same splitted text (each from a fresh state) are equal field for field. -/
theorem parse_deterministic (s : List String) (h₁ h₂ : HandSt)
    (hp₁ : parseFull s = (h₁, none)) (hp₂ : parseFull s = (h₂, none)) :
    h₁ = h₂ :=
  congrArg Prod.fst (hp₁.symm.trans hp₂)

theorem parse_deterministic_witness :
    (parseFull ex1).2 = none ∧ (parseFull ex1).1 = (parseFull ex1).1 :=
  ⟨rfl, parse_deterministic ex1 _ _ rfl rfl⟩

theorem mkHeaderMatch_blinds (ident : List Char) (tourn : Option TournGroups)
    (game lim : List Char) (lvl : Option (List Char)) (bl : BlindsRes)
    (date : List Char) :
    (let m := mkHeaderMatch ident tourn game lim lvl bl date
     (m.sb.isSome ∧ m.bb.isSome ∧ m.cashSb = none ∧ m.cashBb = none) ∨
     (m.sb = none ∧ m.bb = none ∧ m.cashSb.isSome ∧ m.cashBb.isSome)) := by
  cases bl <;> simp [mkHeaderMatch]

theorem headerMatch_blinds_exclusive (line : String) (m : HeaderMatch)
    (hm : headerMatch line = some m) :
    (m.sb.isSome ∧ m.bb.isSome ∧ m.cashSb = none ∧ m.cashBb = none) ∨
    (m.sb = none ∧ m.bb = none ∧ m.cashSb.isSome ∧ m.cashBb.isSome) := by
  unfold headerMatch headerMatchC headerSkipGroup at hm
  repeat' split at hm
  all_goals try (exfalso; exact Option.noConfusion hm)
  all_goals (cases hm; exact mkHeaderMatch_blinds _ _ _ _ _ _ _)

theorem parseHeaderSt_success_fields (line : String) (rest : List String)
    (m : HeaderMatch) (h : HandSt)
    (hm : headerMatch line = some m)
    (hp : parseHeaderSt (initSt (line :: rest)) = (h, none)) :
    h.gameType = some (if m.tournamentIdent.isSome then GameType.TOUR else GameType.CASH) ∧
    h.sb = (m.sb <|> m.cashSb) ∧
    h.bb = (m.bb <|> m.cashBb) ∧
    h.moneyType = some (if resolvedCur m = none then MoneyType.PLAY else MoneyType.REAL) ∧
    h.currency = some ((resolvedCur m).bind CurrencyT.ofString) ∧
    (∀ c, resolvedCur m = some c → (CurrencyT.ofString c).isSome = true) := by
  unfold parseHeaderSt parseHeaderBranch parseHeaderMoney parseHeaderTail at hp
  simp only [initSt, List.get?_cons_zero, hm] at hp
  repeat' split at hp
  all_goals try (injection hp with h1 h2; exact Option.noConfusion h2)
  all_goals injection hp with h1 h2
  all_goals subst h1
  all_goals simp_all [resolvedCur]

/-- C3: for every header line the grammar accepts and that parses
successfully, the game type is TOUR exactly when the tournament-id group
matched and CASH otherwise, and the small and big blinds are taken from
whichever of the mutually exclusive tournament-blind or cash-blind capture
groups matched (exactly one of the two blind group pairs matches). -/
theorem header_game_type_from_tournament_group (line : String) (rest : List String)
    (m : HeaderMatch) (h : HandSt)
    (hm : headerMatch line = some m)
    (hp : parseHeaderSt (initSt (line :: rest)) = (h, none)) :
    (h.gameType = some GameType.TOUR ↔ m.tournamentIdent.isSome = true) ∧
    (h.gameType = some GameType.CASH ↔ m.tournamentIdent = none) ∧
    h.sb = (m.sb <|> m.cashSb) ∧ h.bb = (m.bb <|> m.cashBb) ∧
    ((m.sb.isSome ∧ m.bb.isSome ∧ m.cashSb = none ∧ m.cashBb = none) ∨
     (m.sb = none ∧ m.bb = none ∧ m.cashSb.isSome ∧ m.cashBb.isSome)) := by
  obtain ⟨hg, hsb, hbb, -, -, -⟩ := parseHeaderSt_success_fields line rest m h hm hp
  refine ⟨?_, ?_, hsb, hbb, headerMatch_blinds_exclusive line m hm⟩
  · rw [hg]; cases hti : m.tournamentIdent <;> simp
  · rw [hg]; cases hti : m.tournamentIdent <;> simp

theorem header_game_type_witness :
    (parseHeaderSt (initSt [hdrC4])).2 = none ∧
    (parseHeaderSt (initSt [hdrC4])).1.gameType = some GameType.TOUR ∧
    (parseHeaderSt (initSt [hdrC4])).1.sb = some "1.00" := by
  have h := header_game_type_from_tournament_group hdrC4 []
    ((headerMatch hdrC4).get (by rfl)) ((parseHeaderSt (initSt [hdrC4])).1)
    (Option.some_get _).symm rfl
  refine ⟨rfl, ?_, ?_⟩
  · exact h.1.mpr (by rfl)
  · rw [h.2.2.1]; rfl

/-- C4 (amended): the currency is resolved as (1) the currency capture
group of the matched game-type branch (the tournament group for TOUR, the
cash group for CASH — an explicit code in the other branch's group is
ignored), else (2) USD when the freeroll flag matched, else (3) no
currency; money_type is REAL exactly when a currency was resolved and PLAY
exactly when none was, the currency field then being assigned None. -/
theorem header_currency_resolution (line : String) (rest : List String)
    (m : HeaderMatch) (h : HandSt)
    (hm : headerMatch line = some m)
    (hp : parseHeaderSt (initSt (line :: rest)) = (h, none)) :
    (resolvedCur m = none → h.currency = some none ∧ h.moneyType = some MoneyType.PLAY) ∧
    (∀ c, resolvedCur m = some c →
      h.moneyType = some MoneyType.REAL ∧
      ∃ cu, CurrencyT.ofString c = some cu ∧ h.currency = some (some cu)) := by
  obtain ⟨-, -, -, hmt, hcu, hok⟩ := parseHeaderSt_success_fields line rest m h hm hp
  constructor
  · intro hnone; rw [hcu, hmt, hnone]; simp
  · intro c hc
    obtain ⟨cu, hcu'⟩ := Option.isSome_iff_exists.mp (hok c hc)
    rw [hmt, hcu, hc]
    simp only [Option.bind_eq_bind, Option.some_bind, hcu']
    refine ⟨by simp, cu, rfl, rfl⟩

theorem header_currency_branch_counterexample :
    (headerMatch hdrC4).map HeaderMatch.cashCurrency = some (some "USD") ∧
    (headerMatch hdrC4).map HeaderMatch.tournamentIdent = some (some "2") ∧
    (parseHeaderSt (initSt [hdrC4])).2 = none ∧
    (parseHeaderSt (initSt [hdrC4])).1.currency = some none ∧
    (parseHeaderSt (initSt [hdrC4])).1.moneyType = some MoneyType.PLAY :=
  ⟨rfl, rfl, rfl, rfl, rfl⟩

theorem header_currency_resolution_witness :
    (parseHeaderSt (initSt ["PokerStars Hand #105024000105: Tournament #797469411, $3.19+$0.31 USD Hold'em No Limit - Level I (10/20) - 2013/10/04 13:53:27 ET [2013/10/04 13:53:27 ET]"])).1.moneyType = some MoneyType.REAL ∧
    (parseHeaderSt (initSt ["PokerStars Hand #105024000105: Tournament #797469411, $3.19+$0.31 USD Hold'em No Limit - Level I (10/20) - 2013/10/04 13:53:27 ET [2013/10/04 13:53:27 ET]"])).1.currency = some (some CurrencyT.USD) := by
  have h := header_currency_resolution
    "PokerStars Hand #105024000105: Tournament #797469411, $3.19+$0.31 USD Hold'em No Limit - Level I (10/20) - 2013/10/04 13:53:27 ET [2013/10/04 13:53:27 ET]" []
    ((headerMatch "PokerStars Hand #105024000105: Tournament #797469411, $3.19+$0.31 USD Hold'em No Limit - Level I (10/20) - 2013/10/04 13:53:27 ET [2013/10/04 13:53:27 ET]").get (by rfl))
    _ (Option.some_get _).symm rfl
  have h2 := h.2 "USD" (by rfl)
  obtain ⟨cu, hc1, hc2⟩ := h2.2
  have : some CurrencyT.USD = some cu := hc1
  injection this with this
  subst this
  exact ⟨h2.1, hc2⟩

theorem stepSeq_none_succ {r : HandSt × Option PErr} {f : HandSt → HandSt × Option PErr}
    {h : HandSt} (hs : stepSeq r f = (h, none)) :
    ∃ h', r = (h', none) ∧ f h' = (h, none) := by
  rcases r with ⟨h0, e0⟩
  cases e0 with
  | none => exact ⟨h0, rfl, hs⟩
  | some e => simp [stepSeq] at hs

theorem parseSt_decomp (h0 h : HandSt) (hp : parseSt h0 = (h, none)) :
    ∃ h1 h2 h3 h4 h5 h6 h7 h8 h9 h10 h11 h12 h13,
      parseHeaderIfNeeded h0 = (h1, none) ∧ parseTableSt h1 = (h2, none) ∧
      parsePlayersSt h2 = (h3, none) ∧ parseButtonSt h3 = (h4, none) ∧
      parseHeroSt h4 = (h5, none) ∧ parsePreflopSt h5 = (h6, none) ∧
      parseFlopSt h6 = (h7, none) ∧ parseTurnSt h7 = (h8, none) ∧
      parseRiverSt h8 = (h9, none) ∧ parseShowdownSt h9 = (h10, none) ∧
      parsePotSt h10 = (h11, none) ∧ parseBoardSt h11 = (h12, none) ∧
      parseWinnersSt h12 = (h13, none) ∧ h = { h13 with parsed := true } := by
  unfold parseSt at hp
  obtain ⟨h13, hp, hL⟩ := stepSeq_none_succ hp
  obtain ⟨h12, hp, e13⟩ := stepSeq_none_succ hp
  obtain ⟨h11, hp, e12⟩ := stepSeq_none_succ hp
  obtain ⟨h10, hp, e11⟩ := stepSeq_none_succ hp
  obtain ⟨h9, hp, e10⟩ := stepSeq_none_succ hp
  obtain ⟨h8, hp, e9⟩ := stepSeq_none_succ hp
  obtain ⟨h7, hp, e8⟩ := stepSeq_none_succ hp
  obtain ⟨h6, hp, e7⟩ := stepSeq_none_succ hp
  obtain ⟨h5, hp, e6⟩ := stepSeq_none_succ hp
  obtain ⟨h4, hp, e5⟩ := stepSeq_none_succ hp
  obtain ⟨h3, hp, e4⟩ := stepSeq_none_succ hp
  obtain ⟨h2, hp, e3⟩ := stepSeq_none_succ hp
  obtain ⟨h1, hp, e2⟩ := stepSeq_none_succ hp
  refine ⟨h1, h2, h3, h4, h5, h6, h7, h8, h9, h10, h11, h12, h13,
    hp, e2, e3, e4, e5, e6, e7, e8, e9, e10, e11, e12, e13, ?_⟩
  injection hL with hh _
  exact hh.symm

set_option maxHeartbeats 1000000 in
theorem parseHeaderSt_splitted (h : HandSt) :
    (parseHeaderSt h).1.splitted = h.splitted := by
  unfold parseHeaderSt parseHeaderBranch parseHeaderMoney parseHeaderTail
  try dsimp only
  repeat' split
  all_goals rfl

theorem parseHeaderIfNeeded_splitted (h : HandSt) :
    (parseHeaderIfNeeded h).1.splitted = h.splitted := by
  unfold parseHeaderIfNeeded
  split
  · rfl
  · exact parseHeaderSt_splitted h

theorem parseHeaderIfNeeded_rake_init (s : List String) (h1 : HandSt)
    (he : parseHeaderIfNeeded (initSt s) = (h1, none)) :
    h1.rake = (parseHeaderIfNeeded (initSt s)).1.rake := by
  rw [he]

theorem parseTableSt_frame (h : HandSt) :
    (parseTableSt h).1.splitted = h.splitted ∧ (parseTableSt h).1.rake = h.rake := by
  unfold parseTableSt
  try dsimp only
  repeat' split
  all_goals exact ⟨rfl, rfl⟩

theorem parsePlayersSt_frame (h : HandSt) :
    (parsePlayersSt h).1.splitted = h.splitted ∧ (parsePlayersSt h).1.rake = h.rake ∧
    (parsePlayersSt h).1.tableMatch = h.tableMatch := by
  unfold parsePlayersSt
  try dsimp only
  repeat' split
  all_goals exact ⟨rfl, rfl, rfl⟩

theorem parseButtonSt_frame (h : HandSt) :
    (parseButtonSt h).1.splitted = h.splitted ∧ (parseButtonSt h).1.rake = h.rake ∧
    (parseButtonSt h).1.tableMatch = h.tableMatch ∧
    (parseButtonSt h).1.players = h.players := by
  unfold parseButtonSt
  try dsimp only
  repeat' split
  all_goals exact ⟨rfl, rfl, rfl, rfl⟩

theorem parseHeroSt_frame (h : HandSt) :
    (parseHeroSt h).1.splitted = h.splitted ∧ (parseHeroSt h).1.rake = h.rake ∧
    (parseHeroSt h).1.tableMatch = h.tableMatch := by
  unfold parseHeroSt
  try dsimp only
  repeat' split
  all_goals exact ⟨rfl, rfl, rfl⟩

theorem parsePreflopSt_frame (h : HandSt) :
    (parsePreflopSt h).1.splitted = h.splitted ∧ (parsePreflopSt h).1.rake = h.rake ∧
    (parsePreflopSt h).1.tableMatch = h.tableMatch ∧
    (parsePreflopSt h).1.players = h.players ∧
    (parsePreflopSt h).1.button = h.button ∧ (parsePreflopSt h).1.hero = h.hero := by
  unfold parsePreflopSt
  try dsimp only
  repeat' split
  all_goals exact ⟨rfl, rfl, rfl, rfl, rfl, rfl⟩

theorem parseFlopSt_frame (h : HandSt) :
    (parseFlopSt h).1.splitted = h.splitted ∧ (parseFlopSt h).1.rake = h.rake ∧
    (parseFlopSt h).1.tableMatch = h.tableMatch ∧
    (parseFlopSt h).1.players = h.players ∧
    (parseFlopSt h).1.button = h.button ∧ (parseFlopSt h).1.hero = h.hero := by
  unfold parseFlopSt
  try dsimp only
  repeat' split
  all_goals exact ⟨rfl, rfl, rfl, rfl, rfl, rfl⟩

theorem parseTurnSt_frame (h : HandSt) :
    (parseTurnSt h).1.splitted = h.splitted ∧ (parseTurnSt h).1.rake = h.rake ∧
    (parseTurnSt h).1.tableMatch = h.tableMatch ∧
    (parseTurnSt h).1.players = h.players ∧
    (parseTurnSt h).1.button = h.button ∧ (parseTurnSt h).1.hero = h.hero ∧
    (parseTurnSt h).1.flop = h.flop := by
  unfold parseTurnSt
  try dsimp only
  repeat' split
  all_goals exact ⟨rfl, rfl, rfl, rfl, rfl, rfl, rfl⟩

theorem parseRiverSt_frame (h : HandSt) :
    (parseRiverSt h).1.splitted = h.splitted ∧ (parseRiverSt h).1.rake = h.rake ∧
    (parseRiverSt h).1.tableMatch = h.tableMatch ∧
    (parseRiverSt h).1.players = h.players ∧
    (parseRiverSt h).1.button = h.button ∧ (parseRiverSt h).1.hero = h.hero ∧
    (parseRiverSt h).1.flop = h.flop ∧ (parseRiverSt h).1.turn = h.turn ∧
    (parseRiverSt h).1.turnActions = h.turnActions := by
  unfold parseRiverSt
  try dsimp only
  repeat' split
  all_goals exact ⟨rfl, rfl, rfl, rfl, rfl, rfl, rfl, rfl, rfl⟩

theorem parseShowdownSt_frame (h : HandSt) :
    (parseShowdownSt h).1.splitted = h.splitted ∧ (parseShowdownSt h).1.rake = h.rake ∧
    (parseShowdownSt h).1.tableMatch = h.tableMatch ∧
    (parseShowdownSt h).1.players = h.players ∧
    (parseShowdownSt h).1.button = h.button ∧ (parseShowdownSt h).1.hero = h.hero ∧
    (parseShowdownSt h).1.flop = h.flop ∧ (parseShowdownSt h).1.turn = h.turn ∧
    (parseShowdownSt h).1.turnActions = h.turnActions ∧
    (parseShowdownSt h).1.river = h.river ∧
    (parseShowdownSt h).1.riverActions = h.riverActions := by
  unfold parseShowdownSt
  try dsimp only
  repeat' split
  all_goals exact ⟨rfl, rfl, rfl, rfl, rfl, rfl, rfl, rfl, rfl, rfl, rfl⟩

theorem parsePotSt_frame (h : HandSt) :
    (parsePotSt h).1.splitted = h.splitted ∧ (parsePotSt h).1.rake = h.rake ∧
    (parsePotSt h).1.tableMatch = h.tableMatch ∧
    (parsePotSt h).1.players = h.players ∧
    (parsePotSt h).1.button = h.button ∧ (parsePotSt h).1.hero = h.hero ∧
    (parsePotSt h).1.flop = h.flop ∧ (parsePotSt h).1.turn = h.turn ∧
    (parsePotSt h).1.turnActions = h.turnActions ∧
    (parsePotSt h).1.river = h.river ∧
    (parsePotSt h).1.riverActions = h.riverActions ∧
    (parsePotSt h).1.showDown = h.showDown := by
  unfold parsePotSt
  try dsimp only
  repeat' split
  all_goals exact ⟨rfl, rfl, rfl, rfl, rfl, rfl, rfl, rfl, rfl, rfl, rfl, rfl⟩

theorem parseBoardSt_frame (h : HandSt) :
    (parseBoardSt h).1.splitted = h.splitted ∧ (parseBoardSt h).1.rake = h.rake ∧
    (parseBoardSt h).1.tableMatch = h.tableMatch ∧
    (parseBoardSt h).1.players = h.players ∧
    (parseBoardSt h).1.button = h.button ∧ (parseBoardSt h).1.hero = h.hero ∧
    (parseBoardSt h).1.flop = h.flop ∧
    (parseBoardSt h).1.turnActions = h.turnActions ∧
    (parseBoardSt h).1.riverActions = h.riverActions ∧
    (parseBoardSt h).1.showDown = h.showDown ∧
    (parseBoardSt h).1.totalPot = h.totalPot := by
  unfold parseBoardSt
  try dsimp only
  repeat' split
  all_goals exact ⟨rfl, rfl, rfl, rfl, rfl, rfl, rfl, rfl, rfl, rfl, rfl⟩

theorem parseWinnersSt_frame (h : HandSt) :
    (parseWinnersSt h).1.splitted = h.splitted ∧ (parseWinnersSt h).1.rake = h.rake ∧
    (parseWinnersSt h).1.tableMatch = h.tableMatch ∧
    (parseWinnersSt h).1.players = h.players ∧
    (parseWinnersSt h).1.button = h.button ∧ (parseWinnersSt h).1.hero = h.hero ∧
    (parseWinnersSt h).1.flop = h.flop ∧ (parseWinnersSt h).1.turn = h.turn ∧
    (parseWinnersSt h).1.turnActions = h.turnActions ∧
    (parseWinnersSt h).1.river = h.river ∧
    (parseWinnersSt h).1.riverActions = h.riverActions ∧
    (parseWinnersSt h).1.showDown = h.showDown ∧
    (parseWinnersSt h).1.totalPot = h.totalPot := by
  unfold parseWinnersSt
  try dsimp only
  repeat' split
  all_goals exact ⟨rfl, rfl, rfl, rfl, rfl, rfl, rfl, rfl, rfl, rfl, rfl, rfl, rfl⟩

/-- C8 (amended): after a full parse whose summary pot line matches
`Total pot N ... | Rake M`, the total_pot field equals N, while the rake
capture M is matched but discarded — the rake field keeps whatever the
header parse assigned (the tournament buy-in rake, or None for cash). -/
theorem total_pot_from_summary (s : List String) (h : HandSt) (k : Nat) (n m : String)
    (hp : parseFull s = (h, none))
    (hk : (sectionsOf s).getLast? = some k)
    (hpot : (s.get? (k + 2)).bind potMatch = some (n, m)) :
    h.totalPot = some n ∧ h.rake = (parseHeaderIfNeeded (initSt s)).1.rake := by
  obtain ⟨h1, h2, h3, h4, h5, h6, h7, h8, h9, h10, h11, h12, h13,
    e1, e2, e3, e4, e5, e6, e7, e8, e9, e10, e11, e12, e13, hfin⟩ :=
    parseSt_decomp (initSt s) h hp
  have sp1 : h1.splitted = s := by
    have := parseHeaderIfNeeded_splitted (initSt s); rw [e1] at this; exact this
  have sp2 : h2.splitted = s := by
    have := (parseTableSt_frame h1).1; rw [e2] at this; rw [this, sp1]
  have sp3 : h3.splitted = s := by
    have := (parsePlayersSt_frame h2).1; rw [e3] at this; rw [this, sp2]
  have sp4 : h4.splitted = s := by
    have := (parseButtonSt_frame h3).1; rw [e4] at this; rw [this, sp3]
  have sp5 : h5.splitted = s := by
    have := (parseHeroSt_frame h4).1; rw [e5] at this; rw [this, sp4]
  have sp6 : h6.splitted = s := by
    have := (parsePreflopSt_frame h5).1; rw [e6] at this; rw [this, sp5]
  have sp7 : h7.splitted = s := by
    have := (parseFlopSt_frame h6).1; rw [e7] at this; rw [this, sp6]
  have sp8 : h8.splitted = s := by
    have := (parseTurnSt_frame h7).1; rw [e8] at this; rw [this, sp7]
  have sp9 : h9.splitted = s := by
    have := (parseRiverSt_frame h8).1; rw [e9] at this; rw [this, sp8]
  have sp10 : h10.splitted = s := by
    have := (parseShowdownSt_frame h9).1; rw [e10] at this; rw [this, sp9]
  -- rake chain
  have rk1 : h2.rake = h1.rake := by
    have := (parseTableSt_frame h1).2; rw [e2] at this; exact this
  have rk2 : h3.rake = h2.rake := by
    have := (parsePlayersSt_frame h2).2.1; rw [e3] at this; exact this
  have rk3 : h4.rake = h3.rake := by
    have := (parseButtonSt_frame h3).2.1; rw [e4] at this; exact this
  have rk4 : h5.rake = h4.rake := by
    have := (parseHeroSt_frame h4).2.1; rw [e5] at this; exact this
  have rk5 : h6.rake = h5.rake := by
    have := (parsePreflopSt_frame h5).2.1; rw [e6] at this; exact this
  have rk6 : h7.rake = h6.rake := by
    have := (parseFlopSt_frame h6).2.1; rw [e7] at this; exact this
  have rk7 : h8.rake = h7.rake := by
    have := (parseTurnSt_frame h7).2.1; rw [e8] at this; exact this
  have rk8 : h9.rake = h8.rake := by
    have := (parseRiverSt_frame h8).2.1; rw [e9] at this; exact this
  have rk9 : h10.rake = h9.rake := by
    have := (parseShowdownSt_frame h9).2.1; rw [e10] at this; exact this
  have rk10 : h11.rake = h10.rake := by
    have := (parsePotSt_frame h10).2.1; rw [e11] at this; exact this
  have rk11 : h12.rake = h11.rake := by
    have := (parseBoardSt_frame h11).2.1; rw [e12] at this; exact this
  have rk12 : h13.rake = h12.rake := by
    have := (parseWinnersSt_frame h12).2.1; rw [e13] at this; exact this
  -- the pot step
  obtain ⟨l, hl⟩ : ∃ l, s.get? (k + 2) = some l := by
    cases hls : s.get? (k + 2) with
    | none => rw [hls] at hpot; simp at hpot
    | some l => exact ⟨l, rfl⟩
  rw [hl] at hpot
  simp only [Option.some_bind] at hpot
  unfold potMatch at hpot
  unfold parsePotSt at e11
  rw [sp10] at e11
  simp only [hk, hl, hpot] at e11
  injection e11 with e11h _
  have hpott : h11.totalPot = some n := by rw [← e11h]
  have tp1 : h12.totalPot = h11.totalPot := by
    have := (parseBoardSt_frame h11).2.2.2.2.2.2.2.2.2.2; rw [e12] at this; exact this
  have tp2 : h13.totalPot = h12.totalPot := by
    have := (parseWinnersSt_frame h12).2.2.2.2.2.2.2.2.2.2.2.2; rw [e13] at this; exact this
  subst hfin
  refine ⟨?_, ?_⟩
  · show h13.totalPot = some n
    rw [tp2, tp1, hpott]
  · show h13.rake = _
    rw [e1]
    rw [rk12, rk11, rk10, rk9, rk8, rk7, rk6, rk5, rk4, rk3, rk2, rk1]

theorem setAdd_mem (acc : List String) (x n : String) :
    n ∈ setAdd acc x ↔ n ∈ acc ∨ n = x := by
  unfold setAdd
  split
  · next hx =>
    constructor
    · exact Or.inl
    · rintro (hn | rfl)
      · exact hn
      · exact hx
  · simp [List.mem_append]

theorem winnersLoop_mem (sd : Bool) (lines : List String) :
    ∀ (acc ws : List String), winnersLoop sd acc lines = (ws, none) →
      ∀ n, n ∈ ws ↔ n ∈ acc ∨ ∃ l, l ∈ lines ∧
        ((sd = false ∧ subIn ("collected").data l.data = true ∧ winnerMatchC l.data = some n) ∨
         (sd = true ∧ subIn ("won").data l.data = true ∧ showdownMatchC l.data = some n)) := by
  induction lines with
  | nil =>
    intro acc ws hw n
    injection hw with h1 _
    subst h1
    simp
  | cons l ls ih =>
    intro acc ws hw n
    unfold winnersLoop at hw
    split at hw
    · next hcond =>
      cases hwm : winnerMatchC l.data with
      | none => rw [hwm] at hw; injection hw with _ h2; simp at h2
      | some name =>
        rw [hwm] at hw
        rw [ih (setAdd acc name) ws hw n, setAdd_mem]
        have hsd : sd = false := by
          cases sd
          · rfl
          · exact absurd rfl hcond.1
        subst hsd
        constructor
        · rintro ((hn | rfl) | ⟨l', hl', hP⟩)
          · exact Or.inl hn
          · exact Or.inr ⟨l, List.mem_cons_self _ _, Or.inl ⟨rfl, hcond.2, hwm⟩⟩
          · exact Or.inr ⟨l', List.mem_cons_of_mem _ hl', hP⟩
        · rintro (hn | ⟨l', hl', hP⟩)
          · exact Or.inl (Or.inl hn)
          · rcases List.mem_cons.mp hl' with rfl | hl''
            · rcases hP with ⟨-, -, hwm'⟩ | ⟨hT, -, -⟩
              · rw [hwm] at hwm'
                injection hwm' with hnm
                exact Or.inl (Or.inr hnm.symm)
              · exact absurd hT (by simp)
            · exact Or.inr ⟨l', hl'', hP⟩
    · next hcond1 =>
      split at hw
      · next hcond =>
        cases hwm : showdownMatchC l.data with
        | none => rw [hwm] at hw; injection hw with _ h2; simp at h2
        | some name =>
          rw [hwm] at hw
          rw [ih (setAdd acc name) ws hw n, setAdd_mem]
          have hsd : sd = true := hcond.1
          subst hsd
          constructor
          · rintro ((hn | rfl) | ⟨l', hl', hP⟩)
            · exact Or.inl hn
            · exact Or.inr ⟨l, List.mem_cons_self _ _, Or.inr ⟨rfl, hcond.2, hwm⟩⟩
            · exact Or.inr ⟨l', List.mem_cons_of_mem _ hl', hP⟩
          · rintro (hn | ⟨l', hl', hP⟩)
            · exact Or.inl (Or.inl hn)
            · rcases List.mem_cons.mp hl' with rfl | hl''
              · rcases hP with ⟨hF, -, -⟩ | ⟨-, -, hwm'⟩
                · exact absurd hF (by simp)
                · rw [hwm] at hwm'
                  injection hwm' with hnm
                  exact Or.inl (Or.inr hnm.symm)
              · exact Or.inr ⟨l', hl'', hP⟩
      · next hcond2 =>
        rw [ih acc ws hw n]
        constructor
        · rintro (hn | ⟨l', hl', hP⟩)
          · exact Or.inl hn
          · exact Or.inr ⟨l', List.mem_cons_of_mem _ hl', hP⟩
        · rintro (hn | ⟨l', hl', hP⟩)
          · exact Or.inl hn
          · rcases List.mem_cons.mp hl' with rfl | hl''
            · rcases hP with ⟨hsd, hsub, -⟩ | ⟨hsd, hsub, -⟩
              · subst hsd
                exact absurd ⟨by simp, hsub⟩ hcond1
              · subst hsd
                exact absurd ⟨rfl, hsub⟩ hcond2
            · exact Or.inr ⟨l', hl'', hP⟩

/-- C5 (amended): after a full parse, the winners are determined by the
show_down flag over the summary lines scanned from index
`sections[-1] + 4` on (one slot past the Board-line position, so the first
seat line after the pot line is never scanned): without showdown they are
precisely the names the winner pattern extracts from scanned lines
containing `collected`; with showdown precisely the names the
showed-and-won pattern extracts from scanned lines containing `won`. -/
theorem winners_scan_policy (s : List String) (h : HandSt) (k : Nat)
    (hp : parseFull s = (h, none)) (hk : (sectionsOf s).getLast? = some k) :
    ∃ ws, h.winners = some ws ∧
      (h.showDown = some false →
        ∀ n, n ∈ ws ↔ ∃ l, l ∈ s.drop (k + 4) ∧
          subIn ("collected").data l.data = true ∧ winnerMatchC l.data = some n) ∧
      (h.showDown = some true →
        ∀ n, n ∈ ws ↔ ∃ l, l ∈ s.drop (k + 4) ∧
          subIn ("won").data l.data = true ∧ showdownMatchC l.data = some n) := by
  obtain ⟨h1, h2, h3, h4, h5, h6, h7, h8, h9, h10, h11, h12, h13,
    e1, e2, e3, e4, e5, e6, e7, e8, e9, e10, e11, e12, e13, hfin⟩ :=
    parseSt_decomp (initSt s) h hp
  have sp1 : h1.splitted = s := by
    have := parseHeaderIfNeeded_splitted (initSt s); rw [e1] at this; exact this
  have sp2 : h2.splitted = s := by
    have := (parseTableSt_frame h1).1; rw [e2] at this; rw [this, sp1]
  have sp3 : h3.splitted = s := by
    have := (parsePlayersSt_frame h2).1; rw [e3] at this; rw [this, sp2]
  have sp4 : h4.splitted = s := by
    have := (parseButtonSt_frame h3).1; rw [e4] at this; rw [this, sp3]
  have sp5 : h5.splitted = s := by
    have := (parseHeroSt_frame h4).1; rw [e5] at this; rw [this, sp4]
  have sp6 : h6.splitted = s := by
    have := (parsePreflopSt_frame h5).1; rw [e6] at this; rw [this, sp5]
  have sp7 : h7.splitted = s := by
    have := (parseFlopSt_frame h6).1; rw [e7] at this; rw [this, sp6]
  have sp8 : h8.splitted = s := by
    have := (parseTurnSt_frame h7).1; rw [e8] at this; rw [this, sp7]
  have sp9 : h9.splitted = s := by
    have := (parseRiverSt_frame h8).1; rw [e9] at this; rw [this, sp8]
  have sp10 : h10.splitted = s := by
    have := (parseShowdownSt_frame h9).1; rw [e10] at this; rw [this, sp9]
  have sp11 : h11.splitted = s := by
    have := (parsePotSt_frame h10).1; rw [e11] at this; rw [this, sp10]
  have sp12 : h12.splitted = s := by
    have := (parseBoardSt_frame h11).1; rw [e12] at this; rw [this, sp11]
  unfold parseWinnersSt at e13
  cases hsd : h12.showDown with
  | none => rw [hsd] at e13; injection e13 with _ hno; simp at hno
  | some sd =>
    rw [hsd, sp12, hk] at e13
    dsimp only at e13
    cases hwl : winnersLoop sd [] (s.drop (k + 4)) with
    | mk ws' eo =>
      cases eo with
      | some e => rw [hwl] at e13; simp at e13
      | none =>
        rw [hwl] at e13
        injection e13 with e13h _
        subst hfin
        rw [← e13h]
        refine ⟨ws', rfl, ?_, ?_⟩
        · intro hfalse n
          have hsdf : sd = false := by
            have h' : some sd = some false := hfalse
            injection h'
          subst hsdf
          rw [winnersLoop_mem false (s.drop (k + 4)) [] ws' hwl n]
          simp
        · intro htrue n
          have hsdt : sd = true := by
            have h' : some sd = some true := htrue
            injection h'
          subst hsdt
          rw [winnersLoop_mem true (s.drop (k + 4)) [] ws' hwl n]
          simp

/-- C6 (amended): a successfully parsed hand whose splitted text has no
FLOP marker — and, as in any real flopless hand, no TURN or RIVER marker
and no summary Board recap line — reports the flop as assigned None, the
turn and river cards and action lists as assigned None, and no board;
the missing markers alone never make the parse fail. -/
theorem no_flop_fields_absent (s : List String) (h : HandSt)
    (hp : parseFull s = (h, none))
    (hnf : s.findIdx? (· == "FLOP") = none)
    (hnt : s.findIdx? (· == "TURN") = none)
    (hnr : s.findIdx? (· == "RIVER") = none)
    (hb : ∀ kk bl, (sectionsOf s).getLast? = some kk → s.get? (kk + 3) = some bl →
      prefixOf ("Board").data bl.data = false) :
    h.flop = some none ∧ h.turn = some none ∧ h.turnActions = some none ∧
    h.river = some none ∧ h.riverActions = some none ∧ h.board = none := by
  obtain ⟨h1, h2, h3, h4, h5, h6, h7, h8, h9, h10, h11, h12, h13,
    e1, e2, e3, e4, e5, e6, e7, e8, e9, e10, e11, e12, e13, hfin⟩ :=
    parseSt_decomp (initSt s) h hp
  have sp1 : h1.splitted = s := by
    have := parseHeaderIfNeeded_splitted (initSt s); rw [e1] at this; exact this
  have sp2 : h2.splitted = s := by
    have := (parseTableSt_frame h1).1; rw [e2] at this; rw [this, sp1]
  have sp3 : h3.splitted = s := by
    have := (parsePlayersSt_frame h2).1; rw [e3] at this; rw [this, sp2]
  have sp4 : h4.splitted = s := by
    have := (parseButtonSt_frame h3).1; rw [e4] at this; rw [this, sp3]
  have sp5 : h5.splitted = s := by
    have := (parseHeroSt_frame h4).1; rw [e5] at this; rw [this, sp4]
  have sp6 : h6.splitted = s := by
    have := (parsePreflopSt_frame h5).1; rw [e6] at this; rw [this, sp5]
  have sp7 : h7.splitted = s := by
    have := (parseFlopSt_frame h6).1; rw [e7] at this; rw [this, sp6]
  have sp8 : h8.splitted = s := by
    have := (parseTurnSt_frame h7).1; rw [e8] at this; rw [this, sp7]
  have sp9 : h9.splitted = s := by
    have := (parseRiverSt_frame h8).1; rw [e9] at this; rw [this, sp8]
  have sp10 : h10.splitted = s := by
    have := (parseShowdownSt_frame h9).1; rw [e10] at this; rw [this, sp9]
  have sp11 : h11.splitted = s := by
    have := (parsePotSt_frame h10).1; rw [e11] at this; rw [this, sp10]
  -- flop step: marker absent
  unfold parseFlopSt at e7
  rw [sp6, hnf] at e7
  injection e7 with e7h _
  -- turn step: ValueError path
  have hstT : streetTry s "TURN" = .caught := by unfold streetTry; rw [hnt]
  unfold parseTurnSt at e8
  rw [sp7, hstT] at e8
  injection e8 with e8h _
  -- river step
  have hstR : streetTry s "RIVER" = .caught := by unfold streetTry; rw [hnr]
  unfold parseRiverSt at e9
  rw [sp8, hstR] at e9
  injection e9 with e9h _
  -- board step: no Board line, state unchanged
  have e12h : h11 = h12 := by
    cases hkk : (sectionsOf s).getLast? with
    | none => unfold parseBoardSt at e12; rw [sp11, hkk] at e12; simp at e12
    | some kk =>
      cases hbl : s.get? (kk + 3) with
      | none =>
        unfold parseBoardSt at e12
        rw [sp11, hkk] at e12
        dsimp only at e12
        rw [hbl] at e12
        simp at e12
      | some bl =>
        have hpb := hb kk bl hkk hbl
        unfold parseBoardSt at e12
        rw [sp11, hkk] at e12
        dsimp only at e12
        rw [hbl] at e12
        dsimp only at e12
        rw [hpb] at e12
        simp at e12
        exact e12
  -- field facts at h13
  have wfr := parseWinnersSt_frame h12
  rw [e13] at wfr
  have pfr := parsePotSt_frame h10
  rw [e11] at pfr
  have sfr := parseShowdownSt_frame h9
  rw [e10] at sfr
  have hflop : h13.flop = some none := by
    rw [wfr.2.2.2.2.2.2.1, ← e12h, pfr.2.2.2.2.2.2.1, sfr.2.2.2.2.2.2.1,
      ← e9h, ← e8h, ← e7h]
  have hturn : h13.turn = some none := by
    rw [wfr.2.2.2.2.2.2.2.1, ← e12h, pfr.2.2.2.2.2.2.2.1, sfr.2.2.2.2.2.2.2.1,
      ← e9h, ← e8h]
  have hturnA : h13.turnActions = some none := by
    rw [wfr.2.2.2.2.2.2.2.2.1, ← e12h, pfr.2.2.2.2.2.2.2.2.1, sfr.2.2.2.2.2.2.2.2.1,
      ← e9h, ← e8h]
  have hriver : h13.river = some none := by
    rw [wfr.2.2.2.2.2.2.2.2.2.1, ← e12h, pfr.2.2.2.2.2.2.2.2.2.1,
      sfr.2.2.2.2.2.2.2.2.2.1, ← e9h]
  have hriverA : h13.riverActions = some none := by
    rw [wfr.2.2.2.2.2.2.2.2.2.2.1, ← e12h, pfr.2.2.2.2.2.2.2.2.2.2.1,
      sfr.2.2.2.2.2.2.2.2.2.2, ← e9h]
  subst hfin
  refine ⟨hflop, hturn, hturnA, hriver, hriverA, ?_⟩
  unfold HandSt.board
  have hf : ({ h13 with parsed := true } : HandSt).flop = some none := hflop
  rw [hf]

theorem lt_length_of_get?_some {α : Type} {l : List α} {n : Nat} {a : α}
    (h : l.get? n = some a) : n < l.length := by
  by_contra hn
  rw [List.get?_eq_none.mpr (by omega)] at h
  exact Option.noConfusion h

theorem set_map_name (ps : List Player) (idx : Nat) (p0 : Player) (cb : Combo)
    (hidx : ps.get? idx = some p0) :
    ((ps.set idx { p0 with combo := some cb }).map Player.name) = ps.map Player.name := by
  apply List.ext_get?
  intro n
  rw [List.get?_map, List.get?_map]
  rcases eq_or_ne idx n with rfl | hne
  · rw [List.get?_set_eq, hidx]
    rfl
  · rw [List.get?_set_ne _ _ hne]

/-- C10: after a successful full parse with pairwise-distinct player
names (the spec's stated assumption), the button field equals the
seat-list entry at index (button seat from the table line) − 1, and when
an identified hero has the button player's name the button field is the
hero record itself, carrying the hole-card combo. -/
theorem button_from_table_seat (s : List String) (h : HandSt) (tm : TableMatch)
    (hp : parseFull s = (h, none))
    (htm : h.tableMatch = some tm)
    (hbtn : 1 ≤ tm.button)
    (hnames : ((h.players.getD []).map Player.name).Nodup) :
    h.button = (h.players.getD []).get? (tm.button - 1) ∧
    (∀ hr b, h.hero = some (some hr) → h.button = some b → hr.name = b.name →
      b = hr) := by
  obtain ⟨h1, h2, h3, h4, h5, h6, h7, h8, h9, h10, h11, h12, h13,
    e1, e2, e3, e4, e5, e6, e7, e8, e9, e10, e11, e12, e13, hfin⟩ :=
    parseSt_decomp (initSt s) h hp
  -- transport tableMatch, players, button, hero between h5 and h
  have ffr := parsePreflopSt_frame h5
  rw [e6] at ffr
  dsimp only at ffr
  have gfr := parseFlopSt_frame h6
  rw [e7] at gfr
  dsimp only at gfr
  have tfr := parseTurnSt_frame h7
  rw [e8] at tfr
  dsimp only at tfr
  have rfr := parseRiverSt_frame h8
  rw [e9] at rfr
  dsimp only at rfr
  have sfr := parseShowdownSt_frame h9
  rw [e10] at sfr
  dsimp only at sfr
  have pfr := parsePotSt_frame h10
  rw [e11] at pfr
  dsimp only at pfr
  have bfr := parseBoardSt_frame h11
  rw [e12] at bfr
  dsimp only at bfr
  have wfr := parseWinnersSt_frame h12
  rw [e13] at wfr
  dsimp only at wfr
  have htm13 : h.tableMatch = h5.tableMatch := by
    rw [hfin]
    show h13.tableMatch = h5.tableMatch
    rw [wfr.2.2.1, bfr.2.2.1, pfr.2.2.1, sfr.2.2.1, rfr.2.2.1, tfr.2.2.1,
      gfr.2.2.1, ffr.2.2.1]
  have hpl13 : h.players = h5.players := by
    rw [hfin]
    show h13.players = h5.players
    rw [wfr.2.2.2.1, bfr.2.2.2.1, pfr.2.2.2.1, sfr.2.2.2.1, rfr.2.2.2.1,
      tfr.2.2.2.1, gfr.2.2.2.1, ffr.2.2.2.1]
  have hbt13 : h.button = h5.button := by
    rw [hfin]
    show h13.button = h5.button
    rw [wfr.2.2.2.2.1, bfr.2.2.2.2.1, pfr.2.2.2.2.1, sfr.2.2.2.2.1,
      rfr.2.2.2.2.1, tfr.2.2.2.2.1, gfr.2.2.2.2.1, ffr.2.2.2.2.1]
  have hhr13 : h.hero = h5.hero := by
    rw [hfin]
    show h13.hero = h5.hero
    rw [wfr.2.2.2.2.2.1, bfr.2.2.2.2.2.1, pfr.2.2.2.2.2.1, sfr.2.2.2.2.2.1,
      rfr.2.2.2.2.2.1, tfr.2.2.2.2.2.1, gfr.2.2.2.2.2, ffr.2.2.2.2.2]
  -- the hero step frame for tableMatch
  have h5fr := parseHeroSt_frame h4
  rw [e5] at h5fr
  -- the button step
  unfold parseButtonSt at e4
  cases htm3 : h3.tableMatch with
  | none => rw [htm3] at e4; simp at e4
  | some tm3 =>
    cases hps3 : h3.players with
    | none => rw [htm3, hps3] at e4; simp at e4
    | some ps₀ =>
      rw [htm3, hps3] at e4
      dsimp only at e4
      cases hpg : pyGet ps₀ ((tm3.button : Int) - 1) with
      | none => rw [hpg] at e4; simp at e4
      | some p =>
        rw [hpg] at e4
        injection e4 with e4h _
        -- tm3 = tm
        have htmeq : tm3 = tm := by
          have : h4.tableMatch = some tm3 := by rw [← e4h] <;> exact htm3
          have h2' : h5.tableMatch = some tm3 := by rw [h5fr.2.2, this]
          rw [htm13, h2'] at htm
          exact (Option.some.inj htm)
        subst htmeq
        have hpg' : ps₀.get? (tm3.button - 1) = some p := by
          unfold pyGet at hpg
          rw [if_pos (by omega)] at hpg
          have : ((tm3.button : Int) - 1).toNat = tm3.button - 1 := by omega
          rw [this] at hpg
          exact hpg
        -- the hero step
        subst e4h
        unfold parseHeroSt at e5
        cases hs0 : (sectionsOf ({ h3 with button := some p } : HandSt).splitted).get? 0 with
        | none => rw [hs0] at e5; simp at e5
        | some s0 =>
          rw [hs0] at e5
          dsimp only at e5
          cases hln : ({ h3 with button := some p } : HandSt).splitted.get? (s0 + 2) with
          | none => rw [hln] at e5; simp at e5
          | some line =>
            rw [hln] at e5
            dsimp only at e5
            cases hhm : heroMatchC line.data with
            | none =>
              rw [hhm] at e5
              injection e5 with e5h _
              -- hero is None: conclude
              have hh5 : h5.hero = some none := by rw [← e5h]
              have hb5 : h5.button = some p := by rw [← e5h]
              have hp5 : h5.players = some ps₀ := by rw [← e5h] <;> exact hps3
              constructor
              · rw [hbt13, hb5, hpl13, hp5]
                exact hpg'.symm
              · intro hr b hhero _ _
                rw [hhr13, hh5] at hhero
                exact absurd (Option.some.inj hhero) (by simp)
            | some nc =>
              rw [hhm] at e5
              dsimp only at e5
              cases hps4 : h3.players with
              | none =>
                rw [hps3] at hps4
                exact Option.noConfusion hps4
              | some ps =>
                have hpseq : ps = ps₀ := by
                  have : h3.players = some ps := hps4
                  rw [hps3] at this
                  exact (Option.some.inj this).symm
                subst hpseq
                cases hfi : ps.findIdx? (fun q => q.name == nc.1) with
                | none =>
                  rw [hfi] at e5
                  injection e5 with e5h _
                  have hh5 : h5.hero = some none := by rw [← e5h]
                  have hb5 : h5.button = some p := by rw [← e5h]
                  have hp5 : h5.players = some ps := by rw [← e5h] <;> exact hps3
                  constructor
                  · rw [hbt13, hb5, hpl13, hp5]
                    exact hpg'.symm
                  · intro hr b hhero _ _
                    rw [hhr13, hh5] at hhero
                    exact absurd (Option.some.inj hhero) (by simp)
                | some idx =>
                  rw [hfi] at e5
                  dsimp only at e5
                  cases hcb : comboFromArray (findPairs nc.2) with
                  | none => rw [hcb] at e5; simp at e5
                  | some cb =>
                    rw [hcb] at e5
                    dsimp only at e5
                    cases hg0 : ps.get? idx with
                    | none => rw [hg0] at e5; simp at e5
                    | some p0 =>
                      rw [hg0] at e5
                      dsimp only at e5
                      by_cases hnm : p.name = ({ p0 with combo := some cb } : Player).name
                      · rw [if_pos hnm] at e5
                        injection e5 with e5h _
                        have hh5 : h5.hero = some (some { p0 with combo := some cb }) := by
                          rw [← e5h]
                        have hb5 : h5.button = some { p0 with combo := some cb } := by
                          rw [← e5h]
                        have hp5 : h5.players =
                            some (ps.set idx { p0 with combo := some cb }) := by
                          rw [← e5h]
                        -- idx = tm.button - 1 by name uniqueness
                        have hnod : (ps.map Player.name).Nodup := by
                          have := hnames
                          rw [hpl13, hp5] at this
                          simpa [set_map_name ps idx p0 cb hg0] using this
                        have hlen : tm3.button - 1 < (ps.map Player.name).length := by
                          rw [List.length_map]
                          exact lt_length_of_get?_some hpg'
                        have hidx : tm3.button - 1 = idx := by
                          apply List.get?_inj hlen hnod
                          rw [List.get?_map, List.get?_map, hpg', hg0]
                          simp only [Option.map_some']
                          rw [hnm]
                        constructor
                        · rw [hbt13, hb5, hpl13, hp5]
                          simp only [Option.getD_some]
                          rw [hidx]
                          rw [List.get?_set_eq_of_lt _ (lt_length_of_get?_some hg0)]
                        · intro hr b hhero hbv hnb
                          rw [hhr13, hh5] at hhero
                          rw [hbt13, hb5] at hbv
                          have h1' := Option.some.inj (Option.some.inj hhero)
                          have h2' := Option.some.inj hbv
                          rw [← h1', ← h2']
                      · rw [if_neg hnm] at e5
                        injection e5 with e5h _
                        have hh5 : h5.hero = some (some { p0 with combo := some cb }) := by
                          rw [← e5h]
                        have hb5 : h5.button = some p := by rw [← e5h]
                        have hp5 : h5.players =
                            some (ps.set idx { p0 with combo := some cb }) := by
                          rw [← e5h]
                        have hne : idx ≠ tm3.button - 1 := by
                          intro heq
                          rw [heq, hpg'] at hg0
                          have := Option.some.inj hg0
                          apply hnm
                          rw [← this]
                        constructor
                        · rw [hbt13, hb5, hpl13, hp5]
                          simp only [Option.getD_some]
                          rw [List.get?_set_ne _ _ hne]
                          exact hpg'.symm
                        · intro hr b hhero hbv hnb
                          rw [hhr13, hh5] at hhero
                          rw [hbt13, hb5] at hbv
                          have h1' := Option.some.inj (Option.some.inj hhero)
                          have h2' := Option.some.inj hbv
                          exfalso
                          apply hnm
                          rw [h2', ← hnb, ← h1']

theorem winners_skip_first_summary_line :
    (parseFull exC5).2 = none ∧
    (parseFull exC5).1.showDown = some false ∧
    (sectionsOf exC5).getLast? = some 9 ∧
    exC5.get? (9 + 3) = some "Seat 2: bb collected (30)" ∧
    subIn ("collected").data ("Seat 2: bb collected (30)").data = true ∧
    winnerMatchC ("Seat 2: bb collected (30)").data = some "bb" ∧
    (parseFull exC5).1.winners = some [] :=
  ⟨rfl, rfl, rfl, rfl, rfl, rfl, rfl⟩

theorem winners_scan_policy_witness :
    (parseFull ex1).2 = none ∧ (sectionsOf ex1).getLast? = some 9 ∧
    ∃ ws, (parseFull ex1).1.winners = some ws ∧
      ((parseFull ex1).1.showDown = some false →
        ∀ n, n ∈ ws ↔ ∃ l, l ∈ ex1.drop (9 + 4) ∧
          subIn ("collected").data l.data = true ∧ winnerMatchC l.data = some n) ∧
      ((parseFull ex1).1.showDown = some true →
        ∀ n, n ∈ ws ↔ ∃ l, l ∈ ex1.drop (9 + 4) ∧
          subIn ("won").data l.data = true ∧ showdownMatchC l.data = some n) :=
  ⟨rfl, rfl, winners_scan_policy ex1 _ 9 rfl rfl⟩

theorem no_flop_marker_counterexample :
    exC6.findIdx? (· == "FLOP") = none ∧
    (parseFull exC6).2 = none ∧
    (parseFull exC6).1.turnActions =
      some (some [⟨"bb", ActionT.CHECK, PAValue.nil⟩]) ∧
    (parseFull exC6).1.turn = some (some ⟨'8', 'c'⟩) :=
  ⟨rfl, rfl, rfl, rfl⟩

theorem no_flop_fields_absent_witness :
    (parseFull ex1).2 = none ∧ ex1.findIdx? (· == "FLOP") = none ∧
    (parseFull ex1).1.flop = some none ∧ (parseFull ex1).1.turn = some none ∧
    (parseFull ex1).1.turnActions = some none ∧
    (parseFull ex1).1.river = some none ∧
    (parseFull ex1).1.riverActions = some none ∧
    (parseFull ex1).1.board = none := by
  have hb : ∀ kk bl, (sectionsOf ex1).getLast? = some kk →
      ex1.get? (kk + 3) = some bl → prefixOf ("Board").data bl.data = false := by
    intro kk bl hk hbl
    rw [show (sectionsOf ex1).getLast? = some 9 from rfl] at hk
    injection hk with hk
    subst hk
    rw [show ex1.get? (9 + 3) =
      some "Seat 1: flettl2 folded before Flop (didn't bet)" from rfl] at hbl
    injection hbl with hbl
    subst hbl
    rfl
  have h := no_flop_fields_absent ex1 ((parseFull ex1).1) rfl rfl rfl rfl hb
  exact ⟨rfl, rfl, h.1, h.2.1, h.2.2.1, h.2.2.2.1, h.2.2.2.2.1, h.2.2.2.2.2⟩

theorem rake_not_from_summary :
    (parseFull ex1).2 = none ∧
    (ex1.get? (9 + 2)).bind potMatch = some ("30", "0") ∧
    (parseFull ex1).1.totalPot = some "30" ∧
    (parseFull ex1).1.rake = some (some "0.31") ∧
    ("0.31" : String) ≠ "0" :=
  ⟨rfl, rfl, rfl, rfl, by decide⟩

theorem total_pot_from_summary_witness :
    (parseFull ex1).2 = none ∧
    (parseFull ex1).1.totalPot = some "30" ∧
    (parseFull ex1).1.rake = (parseHeaderIfNeeded (initSt ex1)).1.rake := by
  have h := total_pot_from_summary ex1 ((parseFull ex1).1) 9 "30" "0" rfl rfl rfl
  exact ⟨rfl, h.1, h.2⟩

theorem button_from_table_seat_witness :
    (parseFull ex1).2 = none ∧
    (parseFull ex1).1.tableMatch = some ⟨"797469411 15", 9, 1⟩ ∧
    (parseFull ex1).1.button =
      ((parseFull ex1).1.players.getD []).get? (1 - 1) := by
  have h := button_from_table_seat ex1 ((parseFull ex1).1) ⟨"797469411 15", 9, 1⟩
    rfl rfl (by decide) (by decide)
  exact ⟨rfl, rfl, h.1⟩

end Poker
